import Mathlib

/-!
Verification of the kanga-kicad-parser schema-driven structural matcher.

The repository parses KiCad s-expression files (pre-tokenized by the external
`lexpr` crate into a tree of atoms and cons cells) into typed records.  This
file gives a shallow embedding of the runtime matchers found under
`src/kanga-kicad-parser/src` (the `TryFrom<&Cons>` / `TryFrom<&Value>`
implementations together with the `LexprExt` helper trait) and proves the
frozen claims about them.

Modelling conventions:
* `lexpr::Value` becomes the inductive `Kanga.Value`; the `Cons` type of the
  crate is a (car, cdr) pair, so a `TryFrom<&Cons>` entry point is embedded as
  a function on the `Value.cons car cdr` it denotes (the `Cons` and `Value`
  impls of `LexprExt` produce identical error payloads on cons cells, so this
  is observationally the same).
* `f64` values are modelled exactly as rationals (`ℚ`); the embedding treats
  float arithmetic as exact.  The Rust `as i64` / `as u64` casts truncate
  toward zero and saturate at the integer bounds, and are modelled exactly so.
* Fallible Rust code returning `Result<T, ParseError>` becomes
  `Except ParseError T`.  Code that can panic (`todo!()`, a non-exhaustive
  `match`, an empty function body) is modelled with the `POut` outcome type
  whose third constructor records the panic.
-/

namespace Kanga

/-- Numeric atom of the `lexpr` crate: integers and floats are distinct
storage variants (`Number::as_i64` succeeds only on the integer variants,
`Number::as_f64` succeeds on every variant).  Floats are modelled exactly as
rationals. -/
inductive SNum where
  | int (n : ℤ)
  | float (q : ℚ)
deriving DecidableEq

/-- The s-expression tree handed to the matcher, after `lexpr::Value`:
atoms (booleans, numbers, strings, symbols), cons pairs, and the two empty
markers `Nil` and `Null` (a proper list ends in `Null`). -/
inductive Value where
  | nil
  | null
  | bool (b : Bool)
  | number (n : SNum)
  | string (s : String)
  | symbol (s : String)
  | cons (car cdr : Value)
deriving DecidableEq

/-- The closed error taxonomy of `src/kanga-kicad-parser/src/lib.rs`. -/
inductive ParseError where
  | ExpectedList (v : Value)
  | ExpectedListFloatHead (v : Value)
  | ExpectedListIntHead (v : Value)
  | ExpectedListStrHead (v : Value)
  | ExpectedListSymbolHead (v : Value)
  | ExpectedNil (v : Value)
  | ExpectedSymbol (v : Value) (s : String)
  | InvalidHeight (h : ℚ)
  | InvalidPaperSize (s : String)
  | InvalidUuid (s : String)
  | InvalidWidth (w : ℚ)
  | MissingField (structName fieldName : String) (v : Value)
  | Unexpected (v : Value)
deriving DecidableEq

/-- Embedding of `lexpr::Number::as_i64`: only the integer storage variants convert. -/
def SNum.as_i64 : SNum → Option ℤ
  | .int n => some n
  | .float _ => none

/-- Embedding of `lexpr::Number::as_f64`: every numeric variant converts (exactly, in this
rational model). -/
def SNum.as_f64 : SNum → Option ℚ
  | .int n => some (n : ℚ)
  | .float q => some q

/-- Embedding of `lexpr::Value::as_symbol`. -/
def Value.as_symbol : Value → Option String
  | .symbol s => some s
  | _ => none

/-- Embedding of `lexpr::Value::as_str`: string-like atoms (strings and symbols). -/
def Value.as_str : Value → Option String
  | .string s => some s
  | .symbol s => some s
  | _ => none

/-- Embedding of `lexpr::Value::as_number`. -/
def Value.as_number : Value → Option SNum
  | .number n => some n
  | _ => none

/-- Embedding of `lexpr::Value::as_bool`. -/
def Value.as_bool : Value → Option Bool
  | .bool b => some b
  | _ => none

/-- Embedding of `lexpr::Value::as_cons`, yielding the (car, cdr) pair. -/
def Value.as_cons : Value → Option (Value × Value)
  | .cons a b => some (a, b)
  | _ => none

/-- Embedding of `lexpr::Value::is_null` (true only for the `Null` end-of-list marker). -/
def Value.is_null : Value → Bool
  | .null => true
  | _ => false

/-- Embedding of `LexprExt::expect_bool` for `Value` (lexpr_ext.rs): the symbols
`yes`/`y`/`true`/`t` and `no`/`n`/`false`/`f`, native booleans, and the
`Nil`/`Null` markers (as `false`); anything else is `Unexpected`. -/
def Value.expect_bool (v : Value) : Except ParseError Bool :=
  match v.as_symbol with
  | some sym =>
    if sym = "yes" ∨ sym = "y" ∨ sym = "true" ∨ sym = "t" then .ok true
    else if sym = "no" ∨ sym = "n" ∨ sym = "false" ∨ sym = "f" then .ok false
    else .error (.Unexpected v)
  | none =>
    match v.as_bool with
    | some b => .ok b
    | none =>
      match v with
      | .nil => .ok false
      | .null => .ok false
      | _ => .error (.Unexpected v)

/-- Embedding of `LexprExt::expect_cons` for `Value`. -/
def Value.expect_cons (v : Value) : Except ParseError (Value × Value) :=
  match v.as_cons with
  | some c => .ok c
  | none => .error (.ExpectedList v)

/-- Embedding of `LexprExt::expect_cons_with_any_symbol_head` for `Value`. -/
def Value.expect_cons_with_any_symbol_head (v : Value) :
    Except ParseError (String × Value) := do
  let (car, cdr) ← v.expect_cons
  match car.as_symbol with
  | some sym => .ok (sym, cdr)
  | none => .error (.ExpectedListSymbolHead v)

/-- Embedding of `LexprExt::expect_cons_with_any_str_head` for `Value`. -/
def Value.expect_cons_with_any_str_head (v : Value) :
    Except ParseError (String × Value) := do
  let (car, cdr) ← v.expect_cons
  match car.as_str with
  | some s => .ok (s, cdr)
  | none => .error (.ExpectedListStrHead v)

/-- Embedding of `LexprExt::expect_cons_with_any_float_head` for `Value`. -/
def Value.expect_cons_with_any_float_head (v : Value) :
    Except ParseError (ℚ × Value) := do
  let (car, cdr) ← v.expect_cons
  match car.as_number with
  | none => .error (.ExpectedListFloatHead v)
  | some num =>
    match num.as_f64 with
    | none => .error (.ExpectedListFloatHead v)
    | some q => .ok (q, cdr)

/-- Embedding of `LexprExt::expect_cons_with_any_int_head` for `Value`. -/
def Value.expect_cons_with_any_int_head (v : Value) :
    Except ParseError (ℤ × Value) := do
  let (car, cdr) ← v.expect_cons
  match car.as_number with
  | none => .error (.ExpectedListIntHead v)
  | some num =>
    match num.as_i64 with
    | none => .error (.ExpectedListIntHead v)
    | some n => .ok (n, cdr)

/-- Embedding of `LexprExt::expect_cons_with_symbol_head` for `Value`. -/
def Value.expect_cons_with_symbol_head (v : Value) (symbol : String) :
    Except ParseError Value := do
  let (sym, cdr) ← v.expect_cons_with_any_symbol_head
  if sym ≠ symbol then .error (.ExpectedSymbol v symbol) else .ok cdr

/-- Embedding of `LexprExt::expect_null` for `Value`. -/
def Value.expect_null (v : Value) : Except ParseError Unit :=
  if !v.is_null then .error (.ExpectedNil v) else .ok ()

/-- Truncation toward zero of a rational (the rounding mode of Rust's
float-to-integer `as` casts): the fractional part is discarded, never rounded
away from zero. -/
def truncTowardZero (q : ℚ) : ℤ :=
  if 0 ≤ q then ⌊q⌋ else -⌊-q⌋

/-- Rust `as i64` cast of an (exactly modelled) f64: truncation toward zero,
saturating at the `i64` bounds.  (`NaN`, which maps to 0, has no rational
representative and does not arise in this development.) -/
def f64_as_i64 (q : ℚ) : ℤ :=
  max (-(2 ^ 63)) (min (2 ^ 63 - 1) (truncTowardZero q))

/-- Rust `as u64` cast of an (exactly modelled) f64: truncation toward zero,
saturating at the `u64` bounds. -/
def f64_as_u64 (q : ℚ) : ℕ :=
  (max 0 (min (2 ^ 64 - 1) (truncTowardZero q))).toNat

/-- Embedding of `deserialize_mm_to_nm` (common.rs): millimeters to integer nanometers via
`(v * 1e6) as i64`. -/
def deserialize_mm_to_nm (v : ℚ) : ℤ :=
  f64_as_i64 (v * 1000000)

/-- Embedding of `deserialize_mm_to_unsigned_nm` (common.rs): rejects negative millimeter
values, otherwise `(v * 1e6) as u64`.  The serde error carries no structure
used by any claim; `none` stands for the error case. -/
def deserialize_mm_to_unsigned_nm (v : ℚ) : Option ℕ :=
  if v < 0 then none else some (f64_as_u64 (v * 1000000))

/-- Embedding of `LineStyle` (line_style.rs). -/
inductive LineStyle where
  | Dash
  | DashDot
  | DashDotDot
  | Dot
  | Default
  | Solid
deriving DecidableEq

/-- Embedding of `TryFrom<&Cons> for LineStyle` (line_style.rs), on the denoted cons value. -/
def LineStyle.try_from (v : Value) : Except ParseError LineStyle := do
  let rest ← v.expect_cons_with_symbol_head "type"
  let (value, rest) ← rest.expect_cons_with_any_symbol_head
  let _ ← rest.expect_null
  match value with
  | "dash" => .ok .Dash
  | "dash_dot" => .ok .DashDot
  | "dash_dot_dot" => .ok .DashDotDot
  | "dot" => .ok .Dot
  | "default" => .ok .Default
  | "solid" => .ok .Solid
  | _ => .error (.Unexpected v)

/-- Embedding of `Color` (color.rs): RGBA with optional alpha. -/
structure Color where
  red : ℚ
  green : ℚ
  blue : ℚ
  alpha : Option ℚ
deriving DecidableEq

/-- Embedding of `TryFrom<&Cons> for Color` (color.rs), on the denoted cons value. -/
def Color.try_from (v : Value) : Except ParseError Color := do
  let rest ← v.expect_cons_with_symbol_head "color"
  let (red, rest) ← rest.expect_cons_with_any_float_head
  let (green, rest) ← rest.expect_cons_with_any_float_head
  let (blue, rest) ← rest.expect_cons_with_any_float_head
  if rest.is_null then
    .ok { red, green, blue, alpha := none }
  else do
    let (value, cdr) ← rest.expect_cons_with_any_float_head
    let _ ← cdr.expect_null
    .ok { red, green, blue, alpha := some value }

/-- Embedding of `FillType` (fill.rs). -/
inductive FillType where
  | None
  | Outline
  | Background
deriving DecidableEq

/-- Embedding of `TryFrom<&Cons> for FillType` (fill.rs), on the denoted cons value. -/
def FillType.try_from (v : Value) : Except ParseError FillType := do
  let rest ← v.expect_cons_with_symbol_head "type"
  let (value, rest) ← rest.expect_cons_with_any_symbol_head
  let _ ← rest.expect_null
  match value with
  | "none" => .ok .None
  | "outline" => .ok .Outline
  | "background" => .ok .Background
  | _ => .error (.Unexpected v)

/-- Embedding of `Fill` (fill.rs). -/
structure Fill where
  fill_type : FillType
deriving DecidableEq

/-- Loop body state walk of `TryFrom<&Cons> for Fill` (fill.rs). -/
def fillScan (fill_type : FillType) : Value → Except ParseError Fill
  | .null => .ok { fill_type }
  | .cons element rest => do
    let (key, _) ← element.expect_cons_with_any_symbol_head
    match key with
    | "type" => do
      let ft ← FillType.try_from element
      fillScan ft rest
    | _ => .error (.Unexpected element)
  | v => .error (.ExpectedList v)

/-- Embedding of `TryFrom<&Cons> for Fill` (fill.rs), on the denoted cons value. -/
def Fill.try_from (v : Value) : Except ParseError Fill := do
  let rest ← v.expect_cons_with_symbol_head "fill"
  fillScan .None rest

/-- Embedding of `HorizJustify` (text_justify.rs). -/
inductive HorizJustify where
  | Left
  | Center
  | Right
deriving DecidableEq

/-- Embedding of `VertJustify` (text_justify.rs). -/
inductive VertJustify where
  | Top
  | Center
  | Bottom
deriving DecidableEq

/-- Embedding of `TextJustify` (text_justify.rs). -/
structure TextJustify where
  horiz_justify : HorizJustify
  vert_justify : VertJustify
  mirror : Bool
deriving DecidableEq

/-- Loop of `TryFrom<&Cons> for TextJustify` (text_justify.rs). -/
def textJustifyScan (hj : HorizJustify) (vj : VertJustify) (mirror : Bool) :
    Value → Except ParseError TextJustify
  | .null => .ok { horiz_justify := hj, vert_justify := vj, mirror }
  | .cons car rest =>
    match car.as_symbol with
    | none => .error (.Unexpected car)
    | some key =>
      match key with
      | "left" => textJustifyScan .Left vj mirror rest
      | "right" => textJustifyScan .Right vj mirror rest
      | "top" => textJustifyScan hj .Top mirror rest
      | "bottom" => textJustifyScan hj .Bottom mirror rest
      | "mirror" => textJustifyScan hj vj true rest
      | _ => .error (.Unexpected car)
  | v => .error (.ExpectedList v)

/-- Embedding of `TryFrom<&Cons> for TextJustify` (text_justify.rs), on the denoted cons
value. -/
def TextJustify.try_from (v : Value) : Except ParseError TextJustify := do
  let rest ← v.expect_cons_with_symbol_head "justify"
  textJustifyScan .Center .Center false rest

/-- Embedding of `Size` (size.rs): width and height in (unsigned) nanometers.  The struct
declares `width` before `height`. -/
structure Size where
  width : ℕ
  height : ℕ
deriving DecidableEq

/-- Embedding of `Size::from_mm` (size.rs): validates non-negativity, then converts each
millimeter value with `(v * 1e6) as u64`. -/
def Size.from_mm (width height : ℚ) : Except ParseError Size :=
  if width < 0 then .error (.InvalidWidth width)
  else if height < 0 then .error (.InvalidHeight height)
  else .ok { width := f64_as_u64 (width * 1000000), height := f64_as_u64 (height * 1000000) }

/-- Embedding of `Size::try_from_hw_cons` (size.rs): KiCad places height first, so the
first numeric atom is the height and the second the width; both are then
converted by `Size::from_mm`. -/
def Size.try_from_hw_cons (rest : Value) : Except ParseError Size := do
  let (height, rest) ← rest.expect_cons_with_any_float_head
  let (width, rest) ← rest.expect_cons_with_any_float_head
  let _ ← rest.expect_null
  Size.from_mm width height

/-- Embedding of `TryFrom<&Cons> for Size` (size.rs), on the denoted cons value. -/
def Size.try_from (v : Value) : Except ParseError Size := do
  let rest ← v.expect_cons_with_symbol_head "size"
  Size.try_from_hw_cons rest

/-- Embedding of `Position` (position.rs): coordinates in nanometers, optional angle in
degrees. -/
structure Position where
  x : ℤ
  y : ℤ
  angle : Option ℚ
deriving DecidableEq

/-- Embedding of `Position::try_from_xy_cons` (position.rs): two numeric atoms read in
order as x then y millimeters, an optional third as the angle, then
end-of-list; coordinates convert via `(v * 1e6) as i64`. -/
def Position.try_from_xy_cons (cons : Value) : Except ParseError Position := do
  let (x, rest) ← cons.expect_cons_with_any_float_head
  let (y, rest) ← rest.expect_cons_with_any_float_head
  if !rest.is_null then do
    let (value, rest) ← rest.expect_cons_with_any_float_head
    let _ ← rest.expect_null
    .ok { x := f64_as_i64 (x * 1000000), y := f64_as_i64 (y * 1000000), angle := some value }
  else do
    let _ ← rest.expect_null
    .ok { x := f64_as_i64 (x * 1000000), y := f64_as_i64 (y * 1000000), angle := none }

/-- Embedding of `TryFrom<&Cons> for Position` (position.rs), on the denoted cons value. -/
def Position.try_from (v : Value) : Except ParseError Position := do
  let rest ← v.expect_cons_with_symbol_head "at"
  Position.try_from_xy_cons rest

/-- Embedding of `Stroke` (stroke.rs). -/
structure Stroke where
  width : Option ℤ
  line_style : Option LineStyle
  color : Option Color
deriving DecidableEq

/-- Loop of `TryFrom<&Cons> for Stroke` (stroke.rs).  Note that every arm
overwrites its slot unconditionally: a repeated key silently replaces the
earlier value. -/
def strokeScan (width : Option ℤ) (line_style : Option LineStyle)
    (color : Option Color) : Value → Except ParseError Stroke
  | .null => .ok { width, line_style, color }
  | .cons element rest => do
    let (key, cdr) ← element.expect_cons_with_any_symbol_head
    match key with
    | "width" => do
      let (value, cdr) ← cdr.expect_cons_with_any_float_head
      let _ ← cdr.expect_null
      strokeScan (some (f64_as_i64 (value * 1000000))) line_style color rest
    | "type" => do
      let ls ← LineStyle.try_from element
      strokeScan width (some ls) color rest
    | "color" => do
      let c ← Color.try_from element
      strokeScan width line_style (some c) rest
    | _ => .error (.Unexpected element)
  | v => .error (.ExpectedList v)

/-- Embedding of `TryFrom<&Cons> for Stroke` (stroke.rs), on the denoted cons value. -/
def Stroke.try_from (v : Value) : Except ParseError Stroke := do
  let rest ← v.expect_cons_with_symbol_head "stroke"
  strokeScan none none none rest

/-- Embedding of `Font` (font.rs). -/
structure Font where
  face : Option String
  size : Size
  thickness : Option ℤ
  bold : Bool
  italic : Bool
  line_spacing : Option ℤ
deriving DecidableEq

/-- Mutable slots of the `Font` parse loop. -/
structure FontSlots where
  face : Option String
  size : Option Size
  thickness : Option ℤ
  bold : Bool
  italic : Bool
  line_spacing : Option ℤ
deriving DecidableEq

/-- Loop of `TryFrom<&Cons> for Font` (font.rs): keyed sub-lists
(`face`/`size`/`thickness`/`line_spacing`), bare flags (`bold`/`italic`),
anything else rejected. -/
def fontScan (st : FontSlots) : Value → Except ParseError FontSlots
  | .null => .ok st
  | .cons element rest =>
    match element.as_cons with
    | some _ => do
      let (key, cdr) ← element.expect_cons_with_any_symbol_head
      match key with
      | "face" => do
        let (value, cdr) ← cdr.expect_cons_with_any_str_head
        let _ ← cdr.expect_null
        fontScan { st with face := some value } rest
      | "size" => do
        let s ← Size.try_from element
        fontScan { st with size := some s } rest
      | "thickness" => do
        let (value, cdr) ← cdr.expect_cons_with_any_float_head
        let _ ← cdr.expect_null
        fontScan { st with thickness := some (f64_as_i64 (value * 1000000)) } rest
      | "line_spacing" => do
        let (value, cdr) ← cdr.expect_cons_with_any_float_head
        let _ ← cdr.expect_null
        fontScan { st with line_spacing := some (f64_as_i64 (value * 1000000)) } rest
      | _ => .error (.Unexpected element)
    | none =>
      match element.as_symbol with
      | some sym =>
        match sym with
        | "bold" => fontScan { st with bold := true } rest
        | "italic" => fontScan { st with italic := true } rest
        | _ => .error (.Unexpected element)
      | none => .error (.Unexpected element)
  | v => .error (.ExpectedList v)

/-- Embedding of `TryFrom<&Cons> for Font` (font.rs), on the denoted cons value: after the
scan, `size` is the only required field. -/
def Font.try_from (v : Value) : Except ParseError Font := do
  let rest ← v.expect_cons_with_symbol_head "font"
  let st ← fontScan ⟨none, none, none, false, false, none⟩ rest
  match st.size with
  | none => .error (.MissingField "font" "size" v)
  | some size =>
    .ok { face := st.face, size, thickness := st.thickness, bold := st.bold,
          italic := st.italic, line_spacing := st.line_spacing }

/-- Embedding of `TextEffects` (text_effects.rs). -/
structure TextEffects where
  font : Option Font
  justify : Option TextJustify
  hide : Bool
deriving DecidableEq

/-- Loop of `TryFrom<&Cons> for TextEffects` (text_effects.rs).  Note the
source's `if let Some(e_cons) ... else if let Some(sym) ...` chain has no
final `else`: an element that is neither a cons nor a symbol is silently
skipped. -/
def textEffectsScan (font : Option Font) (justify : Option TextJustify)
    (hide : Bool) : Value → Except ParseError TextEffects
  | .null => .ok { font, justify, hide }
  | .cons element rest =>
    match element.as_cons with
    | some _ => do
      let (key, _) ← element.expect_cons_with_any_symbol_head
      match key with
      | "font" => do
        let f ← Font.try_from element
        textEffectsScan (some f) justify hide rest
      | "justify" => do
        let j ← TextJustify.try_from element
        textEffectsScan font (some j) hide rest
      | _ => .error (.Unexpected element)
    | none =>
      match element.as_symbol with
      | some sym =>
        if sym = "hide" then textEffectsScan font justify true rest
        else .error (.Unexpected element)
      | none => textEffectsScan font justify hide rest
  | v => .error (.ExpectedList v)

/-- Embedding of `TryFrom<&Cons> for TextEffects` (text_effects.rs), on the denoted cons
value. -/
def TextEffects.try_from (v : Value) : Except ParseError TextEffects := do
  let rest ← v.expect_cons_with_symbol_head "effects"
  textEffectsScan none none false rest

/-- Embedding of `SymbolPinElectricalType` (symbol.rs). -/
inductive SymbolPinElectricalType where
  | Input
  | Output
  | Bidirectional
  | TriState
  | Passive
  | Free
  | Unspecified
  | PowerIn
  | PowerOut
  | OpenCollector
  | OpenEmitter
  | NoConnect
deriving DecidableEq

/-- Embedding of `FromStr for SymbolPinElectricalType` (symbol.rs). -/
def SymbolPinElectricalType.from_str (s : String) :
    Except ParseError SymbolPinElectricalType :=
  match s with
  | "input" => .ok .Input
  | "output" => .ok .Output
  | "bidirectional" => .ok .Bidirectional
  | "tri_state" => .ok .TriState
  | "passive" => .ok .Passive
  | "free" => .ok .Free
  | "unspecified" => .ok .Unspecified
  | "power_in" => .ok .PowerIn
  | "power_out" => .ok .PowerOut
  | "open_collector" => .ok .OpenCollector
  | "open_emitter" => .ok .OpenEmitter
  | "no_connect" => .ok .NoConnect
  | _ => .error (.Unexpected (.symbol s))

/-- Embedding of `SymbolPinGraphicalStyle` (symbol.rs). -/
inductive SymbolPinGraphicalStyle where
  | Line
  | Inverted
  | Clock
  | InvertedClock
  | InputLow
  | ClockLow
  | OutputLow
  | EdgeClockHigh
  | NonLogic
deriving DecidableEq

/-- Embedding of `FromStr for SymbolPinGraphicalStyle` (symbol.rs). -/
def SymbolPinGraphicalStyle.from_str (s : String) :
    Except ParseError SymbolPinGraphicalStyle :=
  match s with
  | "line" => .ok .Line
  | "inverted" => .ok .Inverted
  | "clock" => .ok .Clock
  | "inverted_clock" => .ok .InvertedClock
  | "input_low" => .ok .InputLow
  | "clock_low" => .ok .ClockLow
  | "output_low" => .ok .OutputLow
  | "edge_clock_high" => .ok .EdgeClockHigh
  | "non_logic" => .ok .NonLogic
  | _ => .error (.Unexpected (.symbol s))

/-- Embedding of `SymbolPinName` (symbol.rs). -/
structure SymbolPinName where
  name : String
  text_effects : TextEffects
deriving DecidableEq

/-- Loop of `TryFrom<&Cons> for SymbolPinName` (symbol.rs): only an
`effects` sub-list is accepted. -/
def symbolPinNameScan (text_effects : Option TextEffects) :
    Value → Except ParseError (Option TextEffects)
  | .null => .ok text_effects
  | .cons element rest => do
    let (key, _) ← element.expect_cons_with_any_symbol_head
    match key with
    | "effects" => do
      let te ← TextEffects.try_from element
      symbolPinNameScan (some te) rest
    | _ => .error (.Unexpected element)
  | v => .error (.ExpectedList v)

/-- Embedding of `TryFrom<&Cons> for SymbolPinName` (symbol.rs), on the denoted cons
value. -/
def SymbolPinName.try_from (v : Value) : Except ParseError SymbolPinName := do
  let rest ← v.expect_cons_with_symbol_head "name"
  let (name, rest) ← rest.expect_cons_with_any_str_head
  let te ← symbolPinNameScan none rest
  match te with
  | none => .error (.MissingField "name" "effects" v)
  | some text_effects => .ok { name, text_effects }

/-- Embedding of `SymbolPinNumber` (symbol.rs). -/
structure SymbolPinNumber where
  number : String
  text_effects : TextEffects
deriving DecidableEq

/-- Loop of `TryFrom<&Cons> for SymbolPinNumber` (symbol.rs). -/
def symbolPinNumberScan (text_effects : Option TextEffects) :
    Value → Except ParseError (Option TextEffects)
  | .null => .ok text_effects
  | .cons element rest => do
    let (key, _) ← element.expect_cons_with_any_symbol_head
    match key with
    | "effects" => do
      let te ← TextEffects.try_from element
      symbolPinNumberScan (some te) rest
    | _ => .error (.Unexpected element)
  | v => .error (.ExpectedList v)

/-- Embedding of `TryFrom<&Cons> for SymbolPinNumber` (symbol.rs), on the denoted cons
value. -/
def SymbolPinNumber.try_from (v : Value) : Except ParseError SymbolPinNumber := do
  let rest ← v.expect_cons_with_symbol_head "number"
  let (number, rest) ← rest.expect_cons_with_any_str_head
  let te ← symbolPinNumberScan none rest
  match te with
  | none => .error (.MissingField "number" "effects" v)
  | some text_effects => .ok { number, text_effects }

/-- Embedding of `SymbolPinNameDefaults` (symbol.rs). -/
structure SymbolPinNameDefaults where
  offset : ℤ
  hide : Bool
deriving DecidableEq

/-- Loop of `TryFrom<&Cons> for SymbolPinNameDefaults` (symbol.rs): an
`offset` sub-list or the bare `hide` flag. -/
def symbolPinNameDefaultsScan (offset : ℤ) (hide : Bool) :
    Value → Except ParseError SymbolPinNameDefaults
  | .null => .ok { offset, hide }
  | .cons element rest =>
    match element.as_cons with
    | some _ => do
      let (key, cdr) ← element.expect_cons_with_any_symbol_head
      match key with
      | "offset" => do
        let (value, cdr) ← cdr.expect_cons_with_any_float_head
        let _ ← cdr.expect_null
        symbolPinNameDefaultsScan (f64_as_i64 (value * 1000000)) hide rest
      | _ => .error (.Unexpected element)
    | none =>
      match element.as_symbol with
      | some key =>
        if key = "hide" then symbolPinNameDefaultsScan offset true rest
        else .error (.Unexpected element)
      | none => .error (.Unexpected element)
  | v => .error (.ExpectedList v)

/-- Embedding of `TryFrom<&Cons> for SymbolPinNameDefaults` (symbol.rs), on the denoted
cons value. -/
def SymbolPinNameDefaults.try_from (v : Value) :
    Except ParseError SymbolPinNameDefaults := do
  let rest ← v.expect_cons_with_symbol_head "pin_names"
  symbolPinNameDefaultsScan 0 false rest

/-- Embedding of `SymbolPinNumberDefaults` (symbol.rs). -/
structure SymbolPinNumberDefaults where
  hide : Bool
deriving DecidableEq

/-- Loop of `TryFrom<&Cons> for SymbolPinNumberDefaults` (symbol.rs): only
the bare `hide` flag. -/
def symbolPinNumberDefaultsScan (hide : Bool) :
    Value → Except ParseError SymbolPinNumberDefaults
  | .null => .ok { hide }
  | .cons element rest =>
    match element.as_symbol with
    | some key =>
      if key = "hide" then symbolPinNumberDefaultsScan true rest
      else .error (.Unexpected element)
    | none => .error (.Unexpected element)
  | v => .error (.ExpectedList v)

/-- Embedding of `TryFrom<&Cons> for SymbolPinNumberDefaults` (symbol.rs), on the denoted
cons value. -/
def SymbolPinNumberDefaults.try_from (v : Value) :
    Except ParseError SymbolPinNumberDefaults := do
  let rest ← v.expect_cons_with_symbol_head "pin_numbers"
  symbolPinNumberDefaultsScan false rest

/-- Embedding of `SymbolProperty` (symbol.rs). -/
structure SymbolProperty where
  key : String
  value : String
  identifier : Option ℤ
  position : Option Position
  text_effects : Option TextEffects
deriving DecidableEq

/-- Mutable slots of the `SymbolProperty` parse loop. -/
structure SymbolPropertySlots where
  identifier : Option ℤ
  position : Option Position
  text_effects : Option TextEffects
deriving DecidableEq

/-- Loop of `TryFrom<&Cons> for SymbolProperty` (symbol.rs). -/
def symbolPropertyScan (st : SymbolPropertySlots) :
    Value → Except ParseError SymbolPropertySlots
  | .null => .ok st
  | .cons element rest => do
    let (id, cdr) ← element.expect_cons_with_any_symbol_head
    match id with
    | "id" => do
      let (value, cdr) ← cdr.expect_cons_with_any_int_head
      let _ ← cdr.expect_null
      symbolPropertyScan { st with identifier := some value } rest
    | "at" => do
      let p ← Position.try_from element
      symbolPropertyScan { st with position := some p } rest
    | "effects" => do
      let te ← TextEffects.try_from element
      symbolPropertyScan { st with text_effects := some te } rest
    | _ => .error (.Unexpected element)
  | v => .error (.ExpectedList v)

/-- Embedding of `TryFrom<&Cons> for SymbolProperty` (symbol.rs), on the denoted cons
value. -/
def SymbolProperty.try_from (v : Value) : Except ParseError SymbolProperty := do
  let rest ← v.expect_cons_with_symbol_head "property"
  let (key, rest) ← rest.expect_cons_with_any_str_head
  let (value, rest) ← rest.expect_cons_with_any_str_head
  let st ← symbolPropertyScan ⟨none, none, none⟩ rest
  .ok { key, value, identifier := st.identifier, position := st.position,
        text_effects := st.text_effects }

/-- Embedding of `SymbolPin` (symbol.rs).  The struct declares, in order:
electrical type, graphical style, position (`at`), length, name, number. -/
structure SymbolPin where
  electrical_type : SymbolPinElectricalType
  graphical_style : SymbolPinGraphicalStyle
  position : Position
  length : ℤ
  name : SymbolPinName
  number : SymbolPinNumber
deriving DecidableEq

/-- Mutable slots of the `SymbolPin` keyed scan. -/
structure SymbolPinSlots where
  position : Option Position
  length : Option ℤ
  name : Option SymbolPinName
  number : Option SymbolPinNumber
deriving DecidableEq

/-- Loop of `TryFrom<&Cons> for SymbolPin` (symbol.rs): keyed scan over
`at`, `length`, `name`, `number`; unknown keys rejected. -/
def symbolPinScan (st : SymbolPinSlots) : Value → Except ParseError SymbolPinSlots
  | .null => .ok st
  | .cons element rest => do
    let (key, cdr) ← element.expect_cons_with_any_symbol_head
    match key with
    | "at" => do
      let p ← Position.try_from element
      symbolPinScan { st with position := some p } rest
    | "length" => do
      let (value, cdr) ← cdr.expect_cons_with_any_float_head
      let _ ← cdr.expect_null
      symbolPinScan { st with length := some (f64_as_i64 (value * 1000000)) } rest
    | "name" => do
      let n ← SymbolPinName.try_from element
      symbolPinScan { st with name := some n } rest
    | "number" => do
      let n ← SymbolPinNumber.try_from element
      symbolPinScan { st with number := some n } rest
    | _ => .error (.Unexpected element)
  | v => .error (.ExpectedList v)

/-- Post-scan required-field checks of `TryFrom<&Cons> for SymbolPin`
(symbol.rs): the `let Some(...) else` chain runs once, in the order
`position`, `length`, `name`, `number` (the keyed fields in struct
declaration order), each failure yielding `MissingField("pin", field, cons)`
for the whole `(pin ...)` cons value. -/
def symbolPinAssemble (cons : Value) (et : SymbolPinElectricalType)
    (gs : SymbolPinGraphicalStyle) (st : SymbolPinSlots) :
    Except ParseError SymbolPin :=
  match st.position with
  | none => .error (.MissingField "pin" "position" cons)
  | some position =>
    match st.length with
    | none => .error (.MissingField "pin" "length" cons)
    | some length =>
      match st.name with
      | none => .error (.MissingField "pin" "name" cons)
      | some name =>
        match st.number with
        | none => .error (.MissingField "pin" "number" cons)
        | some number =>
          .ok { electrical_type := et, graphical_style := gs, position, length,
                name, number }

/-- Embedding of `TryFrom<&Cons> for SymbolPin` (symbol.rs), on the denoted cons value:
two positional symbol atoms (electrical type, graphical style), then the
keyed scan, then the required-field checks. -/
def SymbolPin.try_from (v : Value) : Except ParseError SymbolPin := do
  let rest ← v.expect_cons_with_symbol_head "pin"
  let (ets, rest) ← rest.expect_cons_with_any_symbol_head
  let electrical_type ← SymbolPinElectricalType.from_str ets
  let (gss, rest) ← rest.expect_cons_with_any_symbol_head
  let graphical_style ← SymbolPinGraphicalStyle.from_str gss
  let st ← symbolPinScan ⟨none, none, none, none⟩ rest
  symbolPinAssemble v electrical_type graphical_style st

/-- Embedding of `SymbolGraphicArc` (symbol.rs). -/
structure SymbolGraphicArc where
  start : Position
  mid : Position
  end_ : Position
  stroke : Stroke
  fill : Fill
deriving DecidableEq

/-- Mutable slots of the `SymbolGraphicArc` keyed scan. -/
structure SymbolGraphicArcSlots where
  start : Option Position
  mid : Option Position
  end_ : Option Position
  stroke : Option Stroke
  fill : Option Fill
deriving DecidableEq

/-- Loop of `TryFrom<&Cons> for SymbolGraphicArc` (symbol.rs). -/
def symbolGraphicArcScan (st : SymbolGraphicArcSlots) :
    Value → Except ParseError SymbolGraphicArcSlots
  | .null => .ok st
  | .cons element rest => do
    let (key, cdr) ← element.expect_cons_with_any_symbol_head
    match key with
    | "start" => do
      let p ← Position.try_from_xy_cons cdr
      symbolGraphicArcScan { st with start := some p } rest
    | "mid" => do
      let p ← Position.try_from_xy_cons cdr
      symbolGraphicArcScan { st with mid := some p } rest
    | "end" => do
      let p ← Position.try_from_xy_cons cdr
      symbolGraphicArcScan { st with end_ := some p } rest
    | "stroke" => do
      let s ← Stroke.try_from element
      symbolGraphicArcScan { st with stroke := some s } rest
    | "fill" => do
      let f ← Fill.try_from element
      symbolGraphicArcScan { st with fill := some f } rest
    | _ => .error (.Unexpected element)
  | v => .error (.ExpectedList v)

/-- Embedding of `TryFrom<&Cons> for SymbolGraphicArc` (symbol.rs), on the denoted cons
value, with the post-scan required-field checks in declaration order. -/
def SymbolGraphicArc.try_from (v : Value) : Except ParseError SymbolGraphicArc := do
  let rest ← v.expect_cons_with_symbol_head "arc"
  let st ← symbolGraphicArcScan ⟨none, none, none, none, none⟩ rest
  match st.start with
  | none => .error (.MissingField "arc" "start" v)
  | some start =>
    match st.mid with
    | none => .error (.MissingField "arc" "mid" v)
    | some mid =>
      match st.end_ with
      | none => .error (.MissingField "arc" "end" v)
      | some end_ =>
        match st.stroke with
        | none => .error (.MissingField "arc" "stroke" v)
        | some stroke =>
          match st.fill with
          | none => .error (.MissingField "arc" "fill" v)
          | some fill => .ok { start, mid, end_, stroke, fill }

/-- Embedding of `SymbolGraphic` (symbol.rs); only the `Arc` variant is reachable from
`Symbol::try_from` (the other graphic kinds have no parse arm there). -/
inductive SymbolGraphic where
  | Arc (arc : SymbolGraphicArc)
deriving DecidableEq

/-- Embedding of `Symbol` (symbol.rs). -/
structure Symbol where
  id : String
  extendsId : Option String
  pin_numbers : SymbolPinNumberDefaults
  pin_names : SymbolPinNameDefaults
  exclude_from_sim : Option Bool
  in_bom : Option Bool
  on_board : Option Bool
  properties : List SymbolProperty
  graphics : List SymbolGraphic
  pins : List SymbolPin
deriving DecidableEq

/-- Mutable slots of the `Symbol` keyed scan (everything after the positional
id).  `extendsId` embeds the source's `extends` local, which is a reserved
word in Lean. -/
structure SymbolSlots where
  extendsId : Option String
  pin_numbers : SymbolPinNumberDefaults
  pin_names : SymbolPinNameDefaults
  exclude_from_sim : Option Bool
  in_bom : Option Bool
  on_board : Option Bool
  properties : List SymbolProperty
  graphics : List SymbolGraphic
  pins : List SymbolPin
deriving DecidableEq

/-- Initial slot state of the `Symbol` scan. -/
def symbolInitSlots : SymbolSlots :=
  ⟨none, ⟨false⟩, ⟨0, false⟩, none, none, none, [], [], []⟩

/-- One iteration of the `Symbol::try_from` keyed scan loop (symbol.rs).
The source handles the keys `exclude_from_sim`, `in_bom` and `on_board` in a
single arm whose inner `match key` repeats the three literals; the arms are
written out separately here, which is the same function.  In the `extends`
arm the source calls `cdr.expect_null()` WITHOUT `?` and drops the returned
`Result`, so trailing content after the extends id is silently ignored; the
dropped call is embedded as a pure `let` binding that is never consulted. -/
def symbol_elem_step (st : SymbolSlots) (element : Value) :
    Except ParseError SymbolSlots := do
  let (key, cdr) ← element.expect_cons_with_any_symbol_head
  match key with
  | "exclude_from_sim" => do
    let v ← cdr.expect_cons
    let _ ← v.2.expect_null
    let value ← v.1.expect_bool
    .ok { st with exclude_from_sim := some value }
  | "in_bom" => do
    let v ← cdr.expect_cons
    let _ ← v.2.expect_null
    let value ← v.1.expect_bool
    .ok { st with in_bom := some value }
  | "on_board" => do
    let v ← cdr.expect_cons
    let _ ← v.2.expect_null
    let value ← v.1.expect_bool
    .ok { st with on_board := some value }
  | "extends" => do
    let (value, cdr) ← cdr.expect_cons_with_any_str_head
    let _ := cdr.expect_null
    .ok { st with extendsId := some value }
  | "pin_names" => do
    let pn ← SymbolPinNameDefaults.try_from element
    .ok { st with pin_names := pn }
  | "pin_numbers" => do
    let pn ← SymbolPinNumberDefaults.try_from element
    .ok { st with pin_numbers := pn }
  | "property" => do
    let p ← SymbolProperty.try_from element
    .ok { st with properties := st.properties ++ [p] }
  | "arc" => do
    let a ← SymbolGraphicArc.try_from element
    .ok { st with graphics := st.graphics ++ [.Arc a] }
  | "pin" => do
    let p ← SymbolPin.try_from element
    .ok { st with pins := st.pins ++ [p] }
  | _ => .error (.Unexpected element)

/-- The `Symbol::try_from` scan loop (symbol.rs). -/
def symbol_scan (st : SymbolSlots) : Value → Except ParseError SymbolSlots
  | .null => .ok st
  | .cons element rest => do
    let st ← symbol_elem_step st element
    symbol_scan st rest
  | v => .error (.ExpectedList v)

/-- Embedding of `TryFrom<&Cons> for Symbol` (symbol.rs), on the denoted cons value:
`symbol` head, positional string id, then the keyed scan. -/
def Symbol.try_from (v : Value) : Except ParseError Symbol := do
  let rest ← v.expect_cons_with_symbol_head "symbol"
  let (id, rest) ← rest.expect_cons_with_any_str_head
  let st ← symbol_scan symbolInitSlots rest
  .ok { id, extendsId := st.extendsId, pin_numbers := st.pin_numbers,
        pin_names := st.pin_names, exclude_from_sim := st.exclude_from_sim,
        in_bom := st.in_bom, on_board := st.on_board,
        properties := st.properties, graphics := st.graphics, pins := st.pins }

/-- Ordered-map insertion embedding Rust's `BTreeMap<i64, String>::insert`:
kept sorted by key, an existing key is overwritten. -/
def btreeInsert (k : ℤ) (v : String) : List (ℤ × String) → List (ℤ × String)
  | [] => [(k, v)]
  | (k0, v0) :: t =>
    if k < k0 then (k, v) :: (k0, v0) :: t
    else if k = k0 then (k, v) :: t
    else (k0, v0) :: btreeInsert k v t

/-- Embedding of `TitleBlock` (title_block.rs). -/
structure TitleBlock where
  title : String
  date : String
  rev : String
  company : String
  comments : List (ℤ × String)
deriving DecidableEq

/-- Loop of `TryFrom<&Cons> for TitleBlock` (title_block.rs).  A `comment`
key reads an integer id and a string; EVERY other key reads a single string
payload, and only the keys `title`, `date`, `rev` and `company` store it —
the source's inner `match key` ends in `_ => ()`, so an unknown key whose
payload is a single string atom is silently discarded. -/
def titleBlockScan (title date rev company : String)
    (comments : List (ℤ × String)) : Value → Except ParseError TitleBlock
  | .null => .ok { title, date, rev, company, comments }
  | .cons element rest => do
    let (key, cdr) ← element.expect_cons_with_any_symbol_head
    if key = "comment" then do
      let (comment_id, cdr) ← cdr.expect_cons_with_any_int_head
      let (comment, cdr) ← cdr.expect_cons_with_any_str_head
      let _ ← cdr.expect_null
      titleBlockScan title date rev company (btreeInsert comment_id comment comments) rest
    else do
      let (value, cdr) ← cdr.expect_cons_with_any_str_head
      let _ ← cdr.expect_null
      match key with
      | "title" => titleBlockScan value date rev company comments rest
      | "date" => titleBlockScan title value rev company comments rest
      | "rev" => titleBlockScan title date value company comments rest
      | "company" => titleBlockScan title date rev value comments rest
      | _ => titleBlockScan title date rev company comments rest
  | v => .error (.ExpectedList v)

/-- Embedding of `TryFrom<&Cons> for TitleBlock` (title_block.rs), on the denoted cons
value. -/
def TitleBlock.try_from (v : Value) : Except ParseError TitleBlock := do
  let rest ← v.expect_cons_with_symbol_head "title_block"
  titleBlockScan "" "" "" "" [] rest

/-- Embedding of `PaperOrientation` (paper.rs). -/
inductive PaperOrientation where
  | Landscape
  | Portrait
deriving DecidableEq

/-- Embedding of `PaperSize` (paper.rs). -/
inductive PaperSize where
  | IsoA0
  | IsoA1
  | IsoA2
  | IsoA3
  | IsoA4
  | IsoA5
  | AnsiA
  | AnsiB
  | AnsiC
  | AnsiD
  | AnsiE
  | User (size : Size)
deriving DecidableEq

/-- Embedding of `PaperSize::from_str` (paper.rs). -/
def PaperSize.from_str (s : String) : Except ParseError PaperSize :=
  match s with
  | "A0" => .ok .IsoA0
  | "A1" => .ok .IsoA1
  | "A2" => .ok .IsoA2
  | "A3" => .ok .IsoA3
  | "A4" => .ok .IsoA4
  | "A5" => .ok .IsoA5
  | "A" => .ok .AnsiA
  | "B" => .ok .AnsiB
  | "C" => .ok .AnsiC
  | "D" => .ok .AnsiD
  | "E" => .ok .AnsiE
  | _ => .error (.InvalidPaperSize s)

/-- Embedding of `Paper` (paper.rs). -/
structure Paper where
  paper_size : PaperSize
  orientation : PaperOrientation
deriving DecidableEq

/-- Embedding of `TryFrom<&Cons> for Paper` (paper.rs), on the denoted cons value.  The
`"User"` branch reads height first, then width, exactly like
`Size::try_from_hw_cons`, and validates/converts through `Size::from_mm`. -/
def Paper.try_from (v : Value) : Except ParseError Paper := do
  let rest ← v.expect_cons_with_symbol_head "paper"
  let (paper_size_str, rest) ← rest.expect_cons_with_any_str_head
  if paper_size_str = "User" then do
    let (height, rest) ← rest.expect_cons_with_any_float_head
    let (width, rest) ← rest.expect_cons_with_any_float_head
    let _ ← rest.expect_null
    let size ← Size.from_mm width height
    .ok { paper_size := .User size, orientation := .Landscape }
  else do
    let paper_size ← PaperSize.from_str paper_size_str
    if !rest.is_null then do
      let rest ← rest.expect_cons_with_symbol_head "portrait"
      let _ ← rest.expect_null
      .ok { paper_size, orientation := .Portrait }
    else
      .ok { paper_size, orientation := .Landscape }

/-- Canonical UUID value.  Modelled from the spec: the `uuid` crate is an
external collaborator (§4.1 Identifier: "atom must be a string whose contents
parse as a canonical identifier; malformed text yields an invalid-identifier
error").  A parsed UUID is kept as its lower-cased canonical text. -/
structure Uuid where
  text : String
deriving DecidableEq

/-- Hexadecimal digit test for the UUID model. -/
def isHexDigit (c : Char) : Bool :=
  c.isDigit || (97 ≤ c.toNat && c.toNat ≤ 102) || (65 ≤ c.toNat && c.toNat ≤ 70)

/-- Segment matcher for the UUID model: the character list must consist of
hex-digit segments of exactly the given lengths, separated by single
dashes. -/
def segsMatch : List Char → List ℕ → Bool
  | cs, [] => cs.isEmpty
  | cs, n :: rest =>
    ((cs.take n).length == n) && (cs.take n).all isHexDigit &&
    match rest with
    | [] => (cs.drop n).isEmpty
    | _ :: _ =>
      match cs.drop n with
      | [] => false
      | c :: t => (c == '-') && segsMatch t rest

/-- Embedding of `Uuid::parse_str`, modelled from the spec for the canonical hyphenated
8-4-4-4-12 form used by KiCad files (the external crate also accepts other
spellings, which this development never exercises); the canonical text is
stored lower-cased. -/
def uuidParseStr (s : String) : Option Uuid :=
  if segsMatch s.toList [8, 4, 4, 4, 12] then
    some ⟨⟨s.toList.map Char.toLower⟩⟩
  else
    none

/-- Embedding of `SchematicJunction` (sch.rs). -/
structure SchematicJunction where
  position : Position
  diameter : ℕ
  color : Color
  uuid : Uuid
deriving DecidableEq

/-- Mutable slots of the `SchematicJunction` keyed scan. -/
structure SchematicJunctionSlots where
  position : Option Position
  diameter : Option ℕ
  color : Option Color
  uuid : Option Uuid
deriving DecidableEq

/-- Loop of `TryFrom<&Cons> for SchematicJunction` (sch.rs). -/
def schematicJunctionScan (st : SchematicJunctionSlots) :
    Value → Except ParseError SchematicJunctionSlots
  | .null => .ok st
  | .cons element rest => do
    let (key, cdr) ← element.expect_cons_with_any_symbol_head
    match key with
    | "at" => do
      let p ← Position.try_from element
      schematicJunctionScan { st with position := some p } rest
    | "diameter" => do
      let (value, cdr) ← cdr.expect_cons_with_any_float_head
      let _ ← cdr.expect_null
      schematicJunctionScan { st with diameter := some (f64_as_u64 (value * 1000000)) } rest
    | "color" => do
      let c ← Color.try_from element
      schematicJunctionScan { st with color := some c } rest
    | "uuid" => do
      let (value, cdr) ← cdr.expect_cons_with_any_symbol_head
      let _ ← cdr.expect_null
      match uuidParseStr value with
      | none => .error (.InvalidUuid value)
      | some u => schematicJunctionScan { st with uuid := some u } rest
    | _ => .error (.Unexpected element)
  | v => .error (.ExpectedList v)

/-- Embedding of `TryFrom<&Cons> for SchematicJunction` (sch.rs), on the denoted cons
value, with the post-scan required-field checks. -/
def SchematicJunction.try_from (v : Value) : Except ParseError SchematicJunction := do
  let st ← do
    let rest ← v.expect_cons_with_symbol_head "junction"
    schematicJunctionScan ⟨none, none, none, none⟩ rest
  match st.position with
  | none => .error (.MissingField "junction" "at" v)
  | some position =>
    match st.diameter with
    | none => .error (.MissingField "junction" "diameter" v)
    | some diameter =>
      match st.color with
      | none => .error (.MissingField "junction" "color" v)
      | some color =>
        match st.uuid with
        | none => .error (.MissingField "junction" "uuid" v)
        | some uuid => .ok { position, diameter, color, uuid }

/-- Embedding of `SchematicNoConnect` (sch.rs). -/
structure SchematicNoConnect where
  position : Position
  uuid : Uuid
deriving DecidableEq

/-- Loop of `TryFrom<&Cons> for SchematicNoConnect` (sch.rs). -/
def schematicNoConnectScan (position : Option Position) (uuid : Option Uuid) :
    Value → Except ParseError (Option Position × Option Uuid)
  | .null => .ok (position, uuid)
  | .cons element rest => do
    let (key, cdr) ← element.expect_cons_with_any_symbol_head
    match key with
    | "at" => do
      let p ← Position.try_from element
      schematicNoConnectScan (some p) uuid rest
    | "uuid" => do
      let (value, cdr) ← cdr.expect_cons_with_any_symbol_head
      let _ ← cdr.expect_null
      match uuidParseStr value with
      | none => .error (.InvalidUuid value)
      | some u => schematicNoConnectScan position (some u) rest
    | _ => .error (.Unexpected element)
  | v => .error (.ExpectedList v)

/-- Embedding of `TryFrom<&Cons> for SchematicNoConnect` (sch.rs), on the denoted cons
value. -/
def SchematicNoConnect.try_from (v : Value) : Except ParseError SchematicNoConnect := do
  let (position?, uuid?) ← do
    let rest ← v.expect_cons_with_symbol_head "no_connect"
    schematicNoConnectScan none none rest
  match position? with
  | none => .error (.MissingField "no_connect" "at" v)
  | some position =>
    match uuid? with
    | none => .error (.MissingField "no_connect" "uuid" v)
    | some uuid => .ok { position, uuid }

/-- Outcome of running a Rust function that may panic: a value, a returned
`ParseError`, or a panic (`todo!()`, an unreachable/non-compiling path, an
empty body). -/
inductive POut (α : Type) where
  | ok (a : α)
  | err (e : ParseError)
  | panicked
deriving DecidableEq

/-- Embedding of `Schematic` (sch.rs): the record type as declared. -/
structure Schematic where
  version : Option ℤ
  generator : String
  generator_version : String
  uuid : Option Uuid
  paper : String
  title_block : Option TitleBlock
  lib_symbols : List Symbol
  junctions : List SchematicJunction
  no_connects : List SchematicNoConnect
deriving DecidableEq

/-- Decidable equality for `Except`, needed because the schematic scan slots
store unexamined sub-parse results. -/
instance instDecEqExcept {ε α : Type} [DecidableEq ε] [DecidableEq α] :
    DecidableEq (Except ε α) := fun x y =>
  match x, y with
  | .ok a, .ok b =>
    if h : a = b then .isTrue (congrArg Except.ok h)
    else .isFalse (fun hc => h (Except.ok.inj hc))
  | .error a, .error b =>
    if h : a = b then .isTrue (congrArg Except.error h)
    else .isFalse (fun hc => h (Except.error.inj hc))
  | .ok _, .error _ => .isFalse (fun hc => Except.noConfusion hc)
  | .error _, .ok _ => .isFalse (fun hc => Except.noConfusion hc)

/-- Mutable locals of the `Schematic::try_from` scan (sch.rs lines 290-303).
The `paper` and `title_block` arms store the UN-unwrapped `Result` of the
sub-parse (the source wraps it in `Some(...)` without `?`), hence the
`Except` under the `Option`. -/
structure SchematicSlots where
  version : Option ℤ
  generator : Option String
  generator_version : Option String
  uuid : Option Uuid
  paper : Option (Except ParseError Paper)
  title_block : Option (Except ParseError TitleBlock)
  lib_symbols : List Symbol
  junctions : List SchematicJunction
  no_connects : List SchematicNoConnect
deriving DecidableEq

/-- Inner `lib_symbols` loop of `Schematic::try_from` (sch.rs). -/
def libSymbolsLoop (acc : List Symbol) : Value → Except ParseError (List Symbol)
  | .null => .ok acc
  | .cons element rest => do
    let s ← Symbol.try_from element
    libSymbolsLoop (acc ++ [s]) rest
  | v => .error (.ExpectedList v)

/-- The `Schematic::try_from` scan loop (sch.rs lines 307-363).  Faithfully
embedded oddities: the `version`, `generator_version` and `uuid` arms call
`expect_null` WITHOUT `?` and drop the `Result` (only `generator` propagates
it); the `paper` and `title_block` arms pass the OUTER list cell `r_cons`
(whose car is the element) to the sub-parser and store the resulting
`Result` unexamined; and the `match key` has no default arm at all, which in
Rust is a non-exhaustive match — an unlisted key cannot be handled, embedded
as a panic outcome. -/
def schematicScan (st : SchematicSlots) : Value → POut SchematicSlots
  | .null => .ok st
  | .cons element rest =>
    match element.expect_cons_with_any_symbol_head with
    | .error e => .err e
    | .ok (key, cdr) =>
      match key with
      | "version" =>
        match cdr.expect_cons_with_any_int_head with
        | .error e => .err e
        | .ok (value, cdr) =>
          let _ := cdr.expect_null
          schematicScan { st with version := some value } rest
      | "generator" =>
        match cdr.expect_cons_with_any_symbol_head with
        | .error e => .err e
        | .ok (value, cdr) =>
          match cdr.expect_null with
          | .error e => .err e
          | .ok _ => schematicScan { st with generator := some value } rest
      | "generator_version" =>
        match cdr.expect_cons_with_any_symbol_head with
        | .error e => .err e
        | .ok (value, cdr) =>
          let _ := cdr.expect_null
          schematicScan { st with generator_version := some value } rest
      | "uuid" =>
        match cdr.expect_cons_with_any_symbol_head with
        | .error e => .err e
        | .ok (value, cdr) =>
          let _ := cdr.expect_null
          match uuidParseStr value with
          | none => .err (.InvalidUuid value)
          | some u => schematicScan { st with uuid := some u } rest
      | "paper" =>
        schematicScan { st with paper := some (Paper.try_from (.cons element rest)) } rest
      | "title_block" =>
        schematicScan { st with title_block := some (TitleBlock.try_from (.cons element rest)) } rest
      | "lib_symbols" =>
        match libSymbolsLoop st.lib_symbols cdr with
        | .error e => .err e
        | .ok syms => schematicScan { st with lib_symbols := syms } rest
      | "junction" =>
        match SchematicJunction.try_from element with
        | .error e => .err e
        | .ok j => schematicScan { st with junctions := st.junctions ++ [j] } rest
      | "no_connect" =>
        match SchematicNoConnect.try_from element with
        | .error e => .err e
        | .ok n => schematicScan { st with no_connects := st.no_connects ++ [n] } rest
      | _ => .panicked
  | v => .err (.ExpectedList v)

/-- Embedding of `TryFrom<&Cons> for Schematic` (sch.rs lines 286-367), on the denoted
cons value: after the scan loop completes without error the function body is
`todo!()`, which panics — no `Schematic` value is ever constructed. -/
def Schematic.try_from_outcome (v : Value) : POut Schematic :=
  match v.expect_cons_with_symbol_head "kicad_sch" with
  | .error e => .err e
  | .ok rest =>
    match schematicScan ⟨none, none, none, none, none, none, [], [], []⟩ rest with
    | .err e => .err e
    | .panicked => .panicked
    | .ok _ => .panicked

/-- Embedding of `TryFrom<&Cons> for SchematicBusEntry` (sch.rs lines 371-377): the
function body is EMPTY in the source (it does not compile as written, and at
runtime nothing can be returned), embedded as an unconditional panic
outcome. -/
def SchematicBusEntry.try_from_outcome (_v : Value) : POut Unit :=
  .panicked

/-- Proper list constructor: chains the given elements with cons cells ending
in the `Null` marker. -/
def Value.ofList : List Value → Value
  | [] => .null
  | v :: t => .cons v (Value.ofList t)

/-- Headed list `(key e₁ … eₙ)` as a value. -/
def Value.keyed (key : String) (elems : List Value) : Value :=
  .cons (.symbol key) (Value.ofList elems)

/-- Float atom shorthand. -/
def Value.num (q : ℚ) : Value :=
  .number (.float q)

/-- Integer atom shorthand. -/
def Value.int (n : ℤ) : Value :=
  .number (.int n)

/-- The rational denoted by a numeric atom (what `as_f64` returns, exactly). -/
def SNum.toRat : SNum → ℚ
  | .int n => (n : ℚ)
  | .float q => q

theorem SNum.as_f64_eq_toRat (n : SNum) : n.as_f64 = some n.toRat := by
  cases n <;> rfl

theorem expect_float_head_number (n : SNum) (t : Value) :
    (Value.cons (.number n) t).expect_cons_with_any_float_head = .ok (n.toRat, t) := by
  cases n <;> rfl

theorem truncTowardZero_intCast (n : ℤ) : truncTowardZero ((n : ℚ)) = n := by
  unfold truncTowardZero
  by_cases h : (0 : ℚ) ≤ (n : ℚ)
  · rw [if_pos h, Int.floor_intCast]
  · rw [if_neg h, show (-(n : ℚ)) = ((-n : ℤ) : ℚ) by push_cast; ring,
      Int.floor_intCast]
    ring

theorem f64_as_i64_intCast (n : ℤ) (h1 : -(2 ^ 63) ≤ n) (h2 : n ≤ 2 ^ 63 - 1) :
    f64_as_i64 ((n : ℚ)) = n := by
  unfold f64_as_i64
  rw [truncTowardZero_intCast, min_eq_right h2, max_eq_right h1]

theorem f64_as_u64_intCast (n : ℤ) (h1 : 0 ≤ n) (h2 : n ≤ 2 ^ 64 - 1) :
    f64_as_u64 ((n : ℚ)) = n.toNat := by
  unfold f64_as_u64
  rw [truncTowardZero_intCast, min_eq_right h2, max_eq_right h1]

/- ============ Keyed-scan analysis machinery (for the Symbol record) ============ -/

@[simp] theorem ok_bind {E α β : Type} (a : α) (f : α → Except E β) :
    (Except.ok a : Except E α) >>= f = f a := rfl

@[simp] theorem error_bind {E α β : Type} (e : E) (f : α → Except E β) :
    (Except.error e : Except E α) >>= f = .error e := rfl

@[simp] theorem ok_map {E α β : Type} (a : α) (f : α → β) :
    (Except.ok a : Except E α).map f = .ok (f a) := rfl

@[simp] theorem error_map {E α β : Type} (e : E) (f : α → β) :
    (Except.error e : Except E α).map f = .error e := rfl

/-- The key dispatch of the `Symbol::try_from` loop body, abstracted over the
already-extracted key and payload (definitionally the body of
`symbol_elem_step` once the leading symbol has been read). -/
def symbolDispatch (st : SymbolSlots) (key : String) (cdr element : Value) :
    Except ParseError SymbolSlots :=
  match key with
  | "exclude_from_sim" => do
    let v ← cdr.expect_cons
    let _ ← v.2.expect_null
    let value ← v.1.expect_bool
    .ok { st with exclude_from_sim := some value }
  | "in_bom" => do
    let v ← cdr.expect_cons
    let _ ← v.2.expect_null
    let value ← v.1.expect_bool
    .ok { st with in_bom := some value }
  | "on_board" => do
    let v ← cdr.expect_cons
    let _ ← v.2.expect_null
    let value ← v.1.expect_bool
    .ok { st with on_board := some value }
  | "extends" => do
    let (value, cdr2) ← cdr.expect_cons_with_any_str_head
    let _ := cdr2.expect_null
    .ok { st with extendsId := some value }
  | "pin_names" => do
    let pn ← SymbolPinNameDefaults.try_from element
    .ok { st with pin_names := pn }
  | "pin_numbers" => do
    let pn ← SymbolPinNumberDefaults.try_from element
    .ok { st with pin_numbers := pn }
  | "property" => do
    let p ← SymbolProperty.try_from element
    .ok { st with properties := st.properties ++ [p] }
  | "arc" => do
    let a ← SymbolGraphicArc.try_from element
    .ok { st with graphics := st.graphics ++ [.Arc a] }
  | "pin" => do
    let p ← SymbolPin.try_from element
    .ok { st with pins := st.pins ++ [p] }
  | _ => .error (.Unexpected element)

theorem symbol_elem_step_eq_dispatch (st : SymbolSlots) (key : String) (cdr : Value) :
    symbol_elem_step st (.cons (.symbol key) cdr) =
      symbolDispatch st key cdr (.cons (.symbol key) cdr) := rfl

/-- The field update denoted by one successfully parsed keyed element of a
`(symbol ...)` list. -/
inductive SymbolUpd where
  | setExcludeFromSim (b : Bool)
  | setInBom (b : Bool)
  | setOnBoard (b : Bool)
  | setExtends (s : String)
  | setPinNames (d : SymbolPinNameDefaults)
  | setPinNumbers (d : SymbolPinNumberDefaults)
  | addProperty (p : SymbolProperty)
  | addArc (a : SymbolGraphicArc)
  | addPin (p : SymbolPin)
deriving DecidableEq

/-- The schema key that produced an update. -/
def symbolUpdKey : SymbolUpd → String
  | .setExcludeFromSim _ => "exclude_from_sim"
  | .setInBom _ => "in_bom"
  | .setOnBoard _ => "on_board"
  | .setExtends _ => "extends"
  | .setPinNames _ => "pin_names"
  | .setPinNumbers _ => "pin_numbers"
  | .addProperty _ => "property"
  | .addArc _ => "arc"
  | .addPin _ => "pin"

/-- Apply one field update to the scan state. -/
def symbolApplyUpd (u : SymbolUpd) (st : SymbolSlots) : SymbolSlots :=
  match u with
  | .setExcludeFromSim b => { st with exclude_from_sim := some b }
  | .setInBom b => { st with in_bom := some b }
  | .setOnBoard b => { st with on_board := some b }
  | .setExtends s => { st with extendsId := some s }
  | .setPinNames d => { st with pin_names := d }
  | .setPinNumbers d => { st with pin_numbers := d }
  | .addProperty p => { st with properties := st.properties ++ [p] }
  | .addArc a => { st with graphics := st.graphics ++ [.Arc a] }
  | .addPin p => { st with pins := st.pins ++ [p] }

/-- State-free view of the dispatch: parse the element into an update.  Each
arm mirrors the corresponding `symbolDispatch` arm. -/
def symbolUpdDispatch (key : String) (cdr element : Value) :
    Except ParseError SymbolUpd :=
  match key with
  | "exclude_from_sim" => do
    let v ← cdr.expect_cons
    let _ ← v.2.expect_null
    let value ← v.1.expect_bool
    .ok (.setExcludeFromSim value)
  | "in_bom" => do
    let v ← cdr.expect_cons
    let _ ← v.2.expect_null
    let value ← v.1.expect_bool
    .ok (.setInBom value)
  | "on_board" => do
    let v ← cdr.expect_cons
    let _ ← v.2.expect_null
    let value ← v.1.expect_bool
    .ok (.setOnBoard value)
  | "extends" => do
    let (value, cdr2) ← cdr.expect_cons_with_any_str_head
    let _ := cdr2.expect_null
    .ok (.setExtends value)
  | "pin_names" => do
    let pn ← SymbolPinNameDefaults.try_from element
    .ok (.setPinNames pn)
  | "pin_numbers" => do
    let pn ← SymbolPinNumberDefaults.try_from element
    .ok (.setPinNumbers pn)
  | "property" => do
    let p ← SymbolProperty.try_from element
    .ok (.addProperty p)
  | "arc" => do
    let a ← SymbolGraphicArc.try_from element
    .ok (.addArc a)
  | "pin" => do
    let p ← SymbolPin.try_from element
    .ok (.addPin p)
  | _ => .error (.Unexpected element)

theorem symbolDispatch_unknown (st : SymbolSlots) (key : String) (cdr element : Value)
    (h : ¬ (key = "exclude_from_sim" ∨ key = "in_bom" ∨ key = "on_board" ∨ key = "extends" ∨
      key = "pin_names" ∨ key = "pin_numbers" ∨ key = "property" ∨ key = "arc" ∨ key = "pin")) :
    symbolDispatch st key cdr element = .error (.Unexpected element) := by
  unfold symbolDispatch
  split
  all_goals first
    | rfl
    | (exfalso; apply h; simp_all)

theorem symbolUpdDispatch_unknown (key : String) (cdr element : Value)
    (h : ¬ (key = "exclude_from_sim" ∨ key = "in_bom" ∨ key = "on_board" ∨ key = "extends" ∨
      key = "pin_names" ∨ key = "pin_numbers" ∨ key = "property" ∨ key = "arc" ∨ key = "pin")) :
    symbolUpdDispatch key cdr element = .error (.Unexpected element) := by
  unfold symbolUpdDispatch
  split
  all_goals first
    | rfl
    | (exfalso; apply h; simp_all)

theorem factor_one {α : Type} (st : SymbolSlots) (T : Except ParseError α)
    (F : α → SymbolSlots) (ctor : α → SymbolUpd)
    (hc : ∀ x, symbolApplyUpd (ctor x) st = F x) :
    (T >>= fun x => Except.ok (F x)) =
      (T >>= fun x => Except.ok (ctor x)).map (fun u => symbolApplyUpd u st) := by
  cases T <;> simp [hc]

theorem factor_bool (st : SymbolSlots) (cdr : Value)
    (F : Bool → SymbolSlots) (ctor : Bool → SymbolUpd)
    (hc : ∀ b, symbolApplyUpd (ctor b) st = F b) :
    (do
      let v ← cdr.expect_cons
      let _ ← v.2.expect_null
      let value ← v.1.expect_bool
      Except.ok (F value)) =
    (do
      let v ← cdr.expect_cons
      let _ ← v.2.expect_null
      let value ← v.1.expect_bool
      Except.ok (ctor value)).map (fun u => symbolApplyUpd u st) := by
  cases hcons : cdr.expect_cons with
  | error e => simp
  | ok v =>
    cases hnull : v.2.expect_null with
    | error e => simp [hnull]
    | ok u => cases hbool : v.1.expect_bool <;> simp [hnull, hbool, hc]

theorem symbolDispatch_factor (st : SymbolSlots) (key : String) (cdr element : Value) :
    symbolDispatch st key cdr element =
      (symbolUpdDispatch key cdr element).map (fun u => symbolApplyUpd u st) := by
  by_cases h1 : key = "exclude_from_sim"
  · subst h1; exact factor_bool st cdr _ _ (fun b => rfl)
  by_cases h2 : key = "in_bom"
  · subst h2; exact factor_bool st cdr _ _ (fun b => rfl)
  by_cases h3 : key = "on_board"
  · subst h3; exact factor_bool st cdr _ _ (fun b => rfl)
  by_cases h4 : key = "extends"
  · subst h4; exact factor_one st cdr.expect_cons_with_any_str_head _ _ (fun x => rfl)
  by_cases h5 : key = "pin_names"
  · subst h5; exact factor_one st (SymbolPinNameDefaults.try_from element) _ _ (fun x => rfl)
  by_cases h6 : key = "pin_numbers"
  · subst h6; exact factor_one st (SymbolPinNumberDefaults.try_from element) _ _ (fun x => rfl)
  by_cases h7 : key = "property"
  · subst h7; exact factor_one st (SymbolProperty.try_from element) _ _ (fun x => rfl)
  by_cases h8 : key = "arc"
  · subst h8; exact factor_one st (SymbolGraphicArc.try_from element) _ _ (fun x => rfl)
  by_cases h9 : key = "pin"
  · subst h9; exact factor_one st (SymbolPin.try_from element) _ _ (fun x => rfl)
  have hno : ¬ (key = "exclude_from_sim" ∨ key = "in_bom" ∨ key = "on_board" ∨
      key = "extends" ∨ key = "pin_names" ∨ key = "pin_numbers" ∨
      key = "property" ∨ key = "arc" ∨ key = "pin") := by
    tauto
  rw [symbolDispatch_unknown st key cdr element hno,
    symbolUpdDispatch_unknown key cdr element hno]
  rfl

/-- Parse one element of a `(symbol ...)` list into its field update; the
scan loop body is this parse followed by applying the update. -/
def symbolParseUpd (element : Value) : Except ParseError SymbolUpd := do
  let (key, cdr) ← element.expect_cons_with_any_symbol_head
  symbolUpdDispatch key cdr element

theorem symbol_elem_step_factor (st : SymbolSlots) (element : Value) :
    symbol_elem_step st element =
      (symbolParseUpd element).map (fun u => symbolApplyUpd u st) := by
  cases element with
  | cons car cdr =>
    cases car with
    | symbol key =>
      rw [symbol_elem_step_eq_dispatch, symbolDispatch_factor]
      rfl
    | nil => rfl
    | null => rfl
    | bool b => rfl
    | number n => rfl
    | string s => rfl
    | cons a b => rfl
  | nil => rfl
  | null => rfl
  | bool b => rfl
  | number n => rfl
  | string s => rfl
  | symbol s => rfl

/-- The leading key of a keyed element, when it has one. -/
def symbolElemKey (e : Value) : Option String :=
  match e.expect_cons_with_any_symbol_head with
  | .ok (k, _) => some k
  | .error _ => none

theorem key_of_one {α : Type} (T : Except ParseError α) (ctor : α → SymbolUpd)
    (k : String) (u : SymbolUpd) (hk : ∀ x, symbolUpdKey (ctor x) = k)
    (h : (T >>= fun x => Except.ok (ctor x)) = .ok u) : symbolUpdKey u = k := by
  cases T with
  | error e => exact absurd h (by simp)
  | ok x =>
    rw [show u = ctor x from (Except.ok.inj h).symm]
    exact hk x

theorem key_of_bool (cdr : Value) (ctor : Bool → SymbolUpd) (k : String)
    (u : SymbolUpd) (hk : ∀ b, symbolUpdKey (ctor b) = k)
    (h : (do
      let v ← cdr.expect_cons
      let _ ← v.2.expect_null
      let value ← v.1.expect_bool
      Except.ok (ctor value)) = .ok u) : symbolUpdKey u = k := by
  cases hc : cdr.expect_cons with
  | error e => simp [hc] at h
  | ok v =>
    simp only [hc, ok_bind] at h
    cases hn : v.2.expect_null with
    | error e => simp [hn] at h
    | ok w =>
      simp only [hn, ok_bind] at h
      cases hb : v.1.expect_bool with
      | error e => simp [hb] at h
      | ok b =>
        simp only [hb, ok_bind, Except.ok.injEq] at h
        rw [← h]
        exact hk b

theorem symbolUpdDispatch_key (key : String) (cdr element : Value) (u : SymbolUpd)
    (h : symbolUpdDispatch key cdr element = .ok u) : symbolUpdKey u = key := by
  by_cases h1 : key = "exclude_from_sim"
  · subst h1; exact key_of_bool cdr SymbolUpd.setExcludeFromSim _ u (fun b => rfl) h
  by_cases h2 : key = "in_bom"
  · subst h2; exact key_of_bool cdr SymbolUpd.setInBom _ u (fun b => rfl) h
  by_cases h3 : key = "on_board"
  · subst h3; exact key_of_bool cdr SymbolUpd.setOnBoard _ u (fun b => rfl) h
  by_cases h4 : key = "extends"
  · subst h4; exact key_of_one cdr.expect_cons_with_any_str_head (fun x => SymbolUpd.setExtends x.1) _ u (fun x => rfl) h
  by_cases h5 : key = "pin_names"
  · subst h5; exact key_of_one (SymbolPinNameDefaults.try_from element) SymbolUpd.setPinNames _ u (fun x => rfl) h
  by_cases h6 : key = "pin_numbers"
  · subst h6; exact key_of_one (SymbolPinNumberDefaults.try_from element) SymbolUpd.setPinNumbers _ u (fun x => rfl) h
  by_cases h7 : key = "property"
  · subst h7; exact key_of_one (SymbolProperty.try_from element) SymbolUpd.addProperty _ u (fun x => rfl) h
  by_cases h8 : key = "arc"
  · subst h8; exact key_of_one (SymbolGraphicArc.try_from element) SymbolUpd.addArc _ u (fun x => rfl) h
  by_cases h9 : key = "pin"
  · subst h9; exact key_of_one (SymbolPin.try_from element) SymbolUpd.addPin _ u (fun x => rfl) h
  have hno : ¬ (key = "exclude_from_sim" ∨ key = "in_bom" ∨ key = "on_board" ∨
      key = "extends" ∨ key = "pin_names" ∨ key = "pin_numbers" ∨
      key = "property" ∨ key = "arc" ∨ key = "pin") := by
    tauto
  rw [symbolUpdDispatch_unknown key cdr element hno] at h
  exact absurd h (by simp)

theorem symbolParseUpd_key (e : Value) (u : SymbolUpd)
    (h : symbolParseUpd e = .ok u) : symbolElemKey e = some (symbolUpdKey u) := by
  unfold symbolParseUpd at h
  cases hs : e.expect_cons_with_any_symbol_head with
  | error err => simp [hs] at h
  | ok kc =>
    obtain ⟨key, cdr⟩ := kc
    simp only [hs, ok_bind] at h
    rw [symbolUpdDispatch_key key cdr e u h]
    simp [symbolElemKey, hs]

theorem symbolApplyUpd_comm (u u2 : SymbolUpd) (st : SymbolSlots)
    (h : symbolUpdKey u ≠ symbolUpdKey u2) :
    symbolApplyUpd u (symbolApplyUpd u2 st) = symbolApplyUpd u2 (symbolApplyUpd u st) := by
  cases u <;> cases u2 <;> first | exact absurd rfl h | rfl

/-- The symbol scan as a fold over the element list: parse each element to
its field update and apply it. -/
def symbolScanL (st : SymbolSlots) : List Value → Except ParseError SymbolSlots
  | [] => .ok st
  | e :: t => symbolParseUpd e >>= fun u => symbolScanL (symbolApplyUpd u st) t

theorem symbol_scan_ofList (l : List Value) : ∀ st : SymbolSlots,
    symbol_scan st (Value.ofList l) = symbolScanL st l := by
  induction l with
  | nil => intro st; rfl
  | cons e t ih =>
    intro st
    show (symbol_elem_step st e >>= fun st2 => symbol_scan st2 (Value.ofList t)) = _
    rw [symbol_elem_step_factor]
    cases hp : symbolParseUpd e with
    | error err => simp [symbolScanL, hp]
    | ok u => simp [symbolScanL, hp, ih]

/-- Agreement of two scan outcomes: identical successes, or both failures
(the errors may differ). -/
def scanAgree (x y : Except ParseError SymbolSlots) : Prop :=
  (∃ a, x = .ok a ∧ y = .ok a) ∨ ((∃ e, x = .error e) ∧ (∃ e, y = .error e))

theorem scanAgree_refl (x : Except ParseError SymbolSlots) : scanAgree x x := by
  cases x with
  | ok a => exact Or.inl ⟨a, rfl, rfl⟩
  | error e => exact Or.inr ⟨⟨e, rfl⟩, ⟨e, rfl⟩⟩

theorem scanAgree_trans {x y z : Except ParseError SymbolSlots}
    (h1 : scanAgree x y) (h2 : scanAgree y z) : scanAgree x z := by
  rcases h1 with ⟨a, hx, hy⟩ | ⟨⟨e1, hx⟩, ⟨e2, hy⟩⟩ <;>
    rcases h2 with ⟨b, hy2, hz⟩ | ⟨⟨e3, hy2⟩, ⟨e4, hz⟩⟩
  · rw [hy] at hy2
    exact Or.inl ⟨a, hx, by rw [hz, ← Except.ok.inj hy2]⟩
  · rw [hy] at hy2
    exact absurd hy2 (by simp)
  · rw [hy] at hy2
    exact absurd hy2 (by simp)
  · exact Or.inr ⟨⟨e1, hx⟩, ⟨e4, hz⟩⟩

theorem symbolScanL_perm {l₁ l₂ : List Value} (hp : l₁.Perm l₂) :
    ∀ st : SymbolSlots, (l₁.map symbolElemKey).Nodup →
      scanAgree (symbolScanL st l₁) (symbolScanL st l₂) := by
  induction hp with
  | nil => exact fun st _ => scanAgree_refl _
  | cons x hperm ih =>
    intro st hd
    cases hx : symbolParseUpd x with
    | error e =>
      exact Or.inr ⟨⟨e, by simp [symbolScanL, hx]⟩, ⟨e, by simp [symbolScanL, hx]⟩⟩
    | ok u =>
      simp only [List.map_cons, List.nodup_cons] at hd
      simp only [symbolScanL, hx, ok_bind]
      exact ih (symbolApplyUpd u st) hd.2
  | swap a b t =>
    intro st hd
    cases hb : symbolParseUpd b with
    | error e =>
      cases ha : symbolParseUpd a with
      | error e2 =>
        exact Or.inr ⟨⟨e, by simp [symbolScanL, hb]⟩, ⟨e2, by simp [symbolScanL, ha]⟩⟩
      | ok ua =>
        exact Or.inr ⟨⟨e, by simp [symbolScanL, hb]⟩, ⟨e, by simp [symbolScanL, ha, hb]⟩⟩
    | ok ub =>
      cases ha : symbolParseUpd a with
      | error e =>
        exact Or.inr ⟨⟨e, by simp [symbolScanL, hb, ha]⟩, ⟨e, by simp [symbolScanL, ha]⟩⟩
      | ok ua =>
        have hne : symbolUpdKey ub ≠ symbolUpdKey ua := by
          intro hcontra
          have h1 := symbolParseUpd_key b ub hb
          have h2 := symbolParseUpd_key a ua ha
          simp only [List.map_cons, List.nodup_cons] at hd
          apply hd.1
          exact List.mem_cons.mpr (Or.inl (by rw [h1, h2, hcontra]))
        simp only [symbolScanL, hb, ha, ok_bind]
        rw [symbolApplyUpd_comm ua ub st (fun hcontra => hne hcontra.symm)]
        exact scanAgree_refl _
  | trans h12 h23 ih1 ih2 =>
    intro st hd
    have hd2 := ((h12.map symbolElemKey).nodup_iff).mp hd
    exact scanAgree_trans (ih1 st hd) (ih2 st hd2)

/-- The key dispatch of the `TitleBlock::try_from` loop body, abstracted over
the already-extracted key and payload (definitionally the loop body of
`titleBlockScan` once the leading symbol has been read). -/
def titleBlockDispatch (t d r c : String) (com : List (ℤ × String))
    (key : String) (payload rest : Value) : Except ParseError TitleBlock :=
  if key = "comment" then do
    let (comment_id, cdr) ← payload.expect_cons_with_any_int_head
    let (comment, cdr) ← cdr.expect_cons_with_any_str_head
    let _ ← cdr.expect_null
    titleBlockScan t d r c (btreeInsert comment_id comment com) rest
  else do
    let (value, cdr) ← payload.expect_cons_with_any_str_head
    let _ ← cdr.expect_null
    match key with
    | "title" => titleBlockScan value d r c com rest
    | "date" => titleBlockScan t value r c com rest
    | "rev" => titleBlockScan t d value c com rest
    | "company" => titleBlockScan t d r value com rest
    | _ => titleBlockScan t d r c com rest

theorem titleBlockScan_eq_dispatch (t d r c : String) (com : List (ℤ × String))
    (key : String) (payload rest : Value) :
    titleBlockScan t d r c com (.cons (.cons (.symbol key) payload) rest) =
      titleBlockDispatch t d r c com key payload rest := rfl

theorem titleBlockDispatch_unknown (t d r c : String) (com : List (ℤ × String))
    (key s : String) (rest : Value)
    (h : ¬ (key = "comment" ∨ key = "title" ∨ key = "date" ∨ key = "rev" ∨ key = "company")) :
    titleBlockDispatch t d r c com key (.cons (.string s) .null) rest =
      titleBlockScan t d r c com rest := by
  unfold titleBlockDispatch
  rw [if_neg (fun hc => h (Or.inl hc))]
  show (match key with
    | "title" => titleBlockScan s d r c com rest
    | "date" => titleBlockScan t s r c com rest
    | "rev" => titleBlockScan t d s c com rest
    | "company" => titleBlockScan t d r s com rest
    | _ => titleBlockScan t d r c com rest) = _
  split
  all_goals first
    | rfl
    | (exfalso; apply h; simp_all)

/-- The record assembly at the end of `Symbol::try_from`. -/
def buildSymbol (id : String) (st : SymbolSlots) : Symbol :=
  { id, extendsId := st.extendsId, pin_numbers := st.pin_numbers,
    pin_names := st.pin_names, exclude_from_sim := st.exclude_from_sim,
    in_bom := st.in_bom, on_board := st.on_board,
    properties := st.properties, graphics := st.graphics, pins := st.pins }

theorem symbol_try_from_eq (id : String) (l : List Value) :
    Symbol.try_from (.cons (.symbol "symbol") (.cons (.string id) (Value.ofList l))) =
      (symbol_scan symbolInitSlots (Value.ofList l)).map (buildSymbol id) := by
  show (symbol_scan symbolInitSlots (Value.ofList l) >>= fun st => Except.ok (buildSymbol id st)) = _
  cases symbol_scan symbolInitSlots (Value.ofList l) <;> rfl

/- ======================= Claim theorems ======================= -/

/-- Claim C7: `Color::try_from` parses `(color r g b)` with three numeric
atoms into a record with `alpha = None`, parses `(color r g b a)` into a
record with `alpha = Some a`, and fails with `ExpectedNil` on
`(color r g b a extra)` with five numeric atoms. -/
theorem color_optional_alpha (r g b a extra : SNum) :
    Color.try_from (Value.keyed "color" [.number r, .number g, .number b]) =
      .ok ⟨r.toRat, g.toRat, b.toRat, none⟩ ∧
    Color.try_from (Value.keyed "color" [.number r, .number g, .number b, .number a]) =
      .ok ⟨r.toRat, g.toRat, b.toRat, some a.toRat⟩ ∧
    Color.try_from (Value.keyed "color" [.number r, .number g, .number b, .number a, .number extra]) =
      .error (.ExpectedNil (Value.ofList [.number extra])) := by
  refine ⟨?_, ?_, ?_⟩ <;> cases r <;> cases g <;> cases b <;> cases a <;> cases extra <;> rfl

/-- Claim C4: every millimeter float read for a dimensional value is stored
as integer nanometers computed by truncation toward zero of
`millimeters * 1_000_000` (never rounding): this is `deserialize_mm_to_nm`,
the coordinate conversion inside `Position::try_from_xy_cons`, and the
conversion inside `Size::from_mm` (whose unsigned cast needs the value
non-negative, which `from_mm` has already validated).  The hypotheses keep
the product inside the 64-bit range where Rust's saturating `as` cast is
pure truncation. -/
theorem mm_to_nm_truncates (mm : ℚ)
    (hlo : -(2 ^ 63) ≤ truncTowardZero (mm * 1000000))
    (hhi : truncTowardZero (mm * 1000000) ≤ 2 ^ 63 - 1) :
    deserialize_mm_to_nm mm = truncTowardZero (mm * 1000000) ∧
    (∀ y : ℚ, Position.try_from_xy_cons (Value.ofList [Value.num mm, Value.num y]) =
        .ok ⟨truncTowardZero (mm * 1000000), f64_as_i64 (y * 1000000), none⟩) ∧
    (0 ≤ mm → Size.from_mm mm mm =
        .ok ⟨(truncTowardZero (mm * 1000000)).toNat, (truncTowardZero (mm * 1000000)).toNat⟩) := by
  have hi64 : f64_as_i64 (mm * 1000000) = truncTowardZero (mm * 1000000) := by
    unfold f64_as_i64
    rw [min_eq_right hhi, max_eq_right hlo]
  refine ⟨hi64, ?_, ?_⟩
  · intro y
    have base : Position.try_from_xy_cons (Value.ofList [Value.num mm, Value.num y]) =
        .ok ⟨f64_as_i64 (mm * 1000000), f64_as_i64 (y * 1000000), none⟩ := rfl
    rw [base, hi64]
  · intro h0
    have hprod : (0 : ℚ) ≤ mm * 1000000 := by positivity
    have ht0 : 0 ≤ truncTowardZero (mm * 1000000) := by
      unfold truncTowardZero
      rw [if_pos hprod]
      exact Int.le_floor.mpr (by exact_mod_cast hprod)
    have hu64 : f64_as_u64 (mm * 1000000) = (truncTowardZero (mm * 1000000)).toNat := by
      unfold f64_as_u64
      rw [min_eq_right (le_trans hhi (by norm_num)), max_eq_right ht0]
    unfold Size.from_mm
    rw [if_neg (not_lt.mpr h0), if_neg (not_lt.mpr h0), hu64]

/-- Claim C4 witness: the conversion facts at the concrete value 1.5 mm
(whose exact nanometer value is 1500000). -/
theorem mm_to_nm_truncates_witness :
    deserialize_mm_to_nm (3 / 2) = truncTowardZero ((3 / 2 : ℚ) * 1000000) ∧
    (∀ y : ℚ, Position.try_from_xy_cons (Value.ofList [Value.num (3 / 2), Value.num y]) =
        .ok ⟨truncTowardZero ((3 / 2 : ℚ) * 1000000), f64_as_i64 (y * 1000000), none⟩) ∧
    ((0 : ℚ) ≤ 3 / 2 → Size.from_mm (3 / 2) (3 / 2) =
        .ok ⟨(truncTowardZero ((3 / 2 : ℚ) * 1000000)).toNat,
          (truncTowardZero ((3 / 2 : ℚ) * 1000000)).toNat⟩) :=
  mm_to_nm_truncates (3 / 2)
    (by
      rw [show ((3 / 2 : ℚ) * 1000000) = ((1500000 : ℤ) : ℚ) by norm_num,
        truncTowardZero_intCast]
      norm_num)
    (by
      rw [show ((3 / 2 : ℚ) * 1000000) = ((1500000 : ℤ) : ℚ) by norm_num,
        truncTowardZero_intCast]
      norm_num)

/-- Claim C10: `Size::try_from_hw_cons` (and the `"User"` branch of
`Paper::try_from`) reads the first numeric atom as the HEIGHT and the second
as the WIDTH — `(size a b)` gives `height = a`, `width = b`, inverting the
width-then-height declaration order of the `Size` struct — and hands both to
`Size::from_mm` for validation and conversion together. -/
theorem size_reads_height_first (a b : ℚ) (ha : 0 ≤ a) (hb : 0 ≤ b) :
    Size.try_from_hw_cons (Value.ofList [Value.num a, Value.num b]) = Size.from_mm b a ∧
    Paper.try_from (Value.keyed "paper" [.string "User", Value.num a, Value.num b]) =
      (Size.from_mm b a).map (fun s => ⟨.User s, .Landscape⟩) ∧
    Size.try_from_hw_cons (Value.ofList [Value.num a, Value.num b]) =
      .ok ⟨f64_as_u64 (b * 1000000), f64_as_u64 (a * 1000000)⟩ := by
  have hok : Size.from_mm b a = .ok ⟨f64_as_u64 (b * 1000000), f64_as_u64 (a * 1000000)⟩ := by
    unfold Size.from_mm
    rw [if_neg (not_lt.mpr hb), if_neg (not_lt.mpr ha)]
  refine ⟨rfl, ?_, ?_⟩
  · show (Size.from_mm b a).bind _ = _
    rw [hok]
    rfl
  · show Size.from_mm b a = _
    exact hok

/-- Claim C10 witness: `(size 3 4)` — the height slot receives 3 mm and the
width slot 4 mm. -/
theorem size_reads_height_first_witness :
    Size.try_from_hw_cons (Value.ofList [Value.num 3, Value.num 4]) = Size.from_mm 4 3 ∧
    Paper.try_from (Value.keyed "paper" [.string "User", Value.num 3, Value.num 4]) =
      (Size.from_mm 4 3).map (fun s => ⟨.User s, .Landscape⟩) ∧
    Size.try_from_hw_cons (Value.ofList [Value.num 3, Value.num 4]) =
      .ok ⟨f64_as_u64 ((4 : ℚ) * 1000000), f64_as_u64 ((3 : ℚ) * 1000000)⟩ :=
  size_reads_height_first 3 4 (by norm_num) (by norm_num)

/-- Claim C5 counterexample: exchanging the two coordinate atoms of
`(at x y)` does NOT produce an error — `Position::try_from_xy_cons` happily
returns the silently-swapped record (1 mm, 2 mm becomes x = 2 mm, y = 1 mm
after the swap), refuting the claim that such a reorder must fail with
`ExpectedSymbol` or a type mismatch. -/
theorem positional_swap_counterexample :
    Position.try_from_xy_cons (Value.ofList [Value.num 1, Value.num 2]) =
      .ok ⟨1000000, 2000000, none⟩ ∧
    Position.try_from_xy_cons (Value.ofList [Value.num 2, Value.num 1]) =
      .ok ⟨2000000, 1000000, none⟩ := by
  have e1 : f64_as_i64 ((1 : ℚ) * 1000000) = 1000000 := by
    rw [show ((1 : ℚ) * 1000000) = ((1000000 : ℤ) : ℚ) by norm_num]
    exact f64_as_i64_intCast 1000000 (by norm_num) (by norm_num)
  have e2 : f64_as_i64 ((2 : ℚ) * 1000000) = 2000000 := by
    rw [show ((2 : ℚ) * 1000000) = ((2000000 : ℤ) : ℚ) by norm_num]
    exact f64_as_i64_intCast 2000000 (by norm_num) (by norm_num)
  have b1 : Position.try_from_xy_cons (Value.ofList [Value.num 1, Value.num 2]) =
      .ok ⟨f64_as_i64 ((1 : ℚ) * 1000000), f64_as_i64 ((2 : ℚ) * 1000000), none⟩ := rfl
  have b2 : Position.try_from_xy_cons (Value.ofList [Value.num 2, Value.num 1]) =
      .ok ⟨f64_as_i64 ((2 : ℚ) * 1000000), f64_as_i64 ((1 : ℚ) * 1000000), none⟩ := rfl
  rw [b1, b2, e1, e2]
  exact ⟨rfl, rfl⟩

/-- Claim C5 as amended: positional numeric leaf atoms are bound strictly by
position, so exchanging the two same-typed coordinate atoms of `(at x y)` or
of `(size h w)` is undetectable and yields a successful parse whose two
field values are exchanged (for `size`, subject to the usual `from_mm`
validation), rather than an `ExpectedSymbol`/type-mismatch error. -/
theorem positional_swap_amended (x y : ℚ) :
    Position.try_from_xy_cons (Value.ofList [Value.num x, Value.num y]) =
      .ok ⟨f64_as_i64 (x * 1000000), f64_as_i64 (y * 1000000), none⟩ ∧
    Position.try_from_xy_cons (Value.ofList [Value.num y, Value.num x]) =
      .ok ⟨f64_as_i64 (y * 1000000), f64_as_i64 (x * 1000000), none⟩ ∧
    Size.try_from_hw_cons (Value.ofList [Value.num x, Value.num y]) = Size.from_mm y x ∧
    Size.try_from_hw_cons (Value.ofList [Value.num y, Value.num x]) = Size.from_mm x y := by
  exact ⟨rfl, rfl, rfl, rfl⟩

/-- Claim C3 counterexample: two `(width ...)` elements inside one
`(stroke ...)` list do NOT produce a `DuplicateField` error — the parse
succeeds and the second width silently overwrites the first (2 mm wins). -/
theorem stroke_duplicate_width_counterexample :
    Stroke.try_from (Value.keyed "stroke"
        [Value.keyed "width" [Value.num 1], Value.keyed "width" [Value.num 2]]) =
      .ok ⟨some 2000000, none, none⟩ := by
  have base : Stroke.try_from (Value.keyed "stroke"
      [Value.keyed "width" [Value.num 1], Value.keyed "width" [Value.num 2]]) =
      .ok ⟨some (f64_as_i64 ((2 : ℚ) * 1000000)), none, none⟩ := rfl
  rw [base, show ((2 : ℚ) * 1000000) = ((2000000 : ℤ) : ℚ) by norm_num,
    f64_as_i64_intCast 2000000 (by norm_num) (by norm_num)]

/-- Claim C3 as amended: supplying the same singular keyed field twice in one
record's list is accepted, the later occurrence silently overwriting the
earlier one (shown here for `(width ...)` inside `(stroke ...)`); the
`ParseError` taxonomy of lib.rs contains no `DuplicateField` variant at all. -/
theorem stroke_duplicate_width_overwrites (q1 q2 : ℚ) :
    Stroke.try_from (Value.keyed "stroke"
        [Value.keyed "width" [Value.num q1], Value.keyed "width" [Value.num q2]]) =
      .ok ⟨some (f64_as_i64 (q2 * 1000000)), none, none⟩ := by
  rfl

/-- A `(pin ...)` input whose keyed content supplies `at`, `length` and
`name` but no `(number ...)` sub-element. -/
def pinNoNumberInput : Value :=
  Value.keyed "pin" [.symbol "passive", .symbol "line",
    Value.keyed "at" [.int 0, .int 0],
    Value.keyed "length" [.int 3],
    Value.keyed "name" [.string "A",
      Value.keyed "effects" [Value.keyed "font" [Value.keyed "size" [.int 1, .int 1]]]]]

/-- Claim C8: after the keyed scan of a record completes without error,
every required field still unset triggers `MissingField(record, field)`, and
the checks run once, deterministically, in schema declaration order — for
`SymbolPin` the order `position`, `length`, `name`, `number`; in particular a
`(pin ...)` element with no `(number ...)` sub-element fails with
`MissingField("pin", "number", pin-cons)`. -/
theorem pin_missing_field_declaration_order :
    (∀ (c : Value) (et : SymbolPinElectricalType) (gs : SymbolPinGraphicalStyle)
        (l : Option ℤ) (n : Option SymbolPinName) (m : Option SymbolPinNumber),
      symbolPinAssemble c et gs ⟨none, l, n, m⟩ =
        .error (.MissingField "pin" "position" c)) ∧
    (∀ c et gs (p : Position) (n : Option SymbolPinName) (m : Option SymbolPinNumber),
      symbolPinAssemble c et gs ⟨some p, none, n, m⟩ =
        .error (.MissingField "pin" "length" c)) ∧
    (∀ c et gs (p : Position) (l : ℤ) (m : Option SymbolPinNumber),
      symbolPinAssemble c et gs ⟨some p, some l, none, m⟩ =
        .error (.MissingField "pin" "name" c)) ∧
    (∀ c et gs (p : Position) (l : ℤ) (n : SymbolPinName),
      symbolPinAssemble c et gs ⟨some p, some l, some n, none⟩ =
        .error (.MissingField "pin" "number" c)) ∧
    SymbolPin.try_from pinNoNumberInput =
      .error (.MissingField "pin" "number" pinNoNumberInput) := by
  refine ⟨fun _ _ _ _ _ _ => rfl, fun _ _ _ _ _ _ => rfl,
    fun _ _ _ _ _ _ => rfl, fun _ _ _ _ _ _ => rfl, rfl⟩

/-- The initial (all-unset) slot state of the schematic scan. -/
def schematicInitSlots : SchematicSlots :=
  ⟨none, none, none, none, none, none, [], [], []⟩

/-- Claim C9: the claim says trailing content after the expected values of
the `extends` arm of `Symbol::try_from` and the `version`,
`generator_version` and `uuid` arms of `Schematic::try_from` must be
rejected with `ExpectedNil`.  The code instead calls `expect_null()` WITHOUT
`?` in exactly those four arms and drops the returned `Result`, so the
trailing content is silently accepted — unlike the adjacent `generator` arm,
which does propagate the check and fails.  This theorem evaluates all five
arms on inputs with trailing content. -/
theorem trailing_content_dropped_checks :
    Symbol.try_from (Value.keyed "symbol"
        [.string "X", Value.keyed "extends" [.string "Y", .string "extra"]]) =
      .ok ⟨"X", some "Y", ⟨false⟩, ⟨0, false⟩, none, none, none, [], [], []⟩ ∧
    schematicScan schematicInitSlots
        (Value.ofList [Value.keyed "version" [.int 20231120, .int 5]]) =
      .ok { schematicInitSlots with version := some 20231120 } ∧
    schematicScan schematicInitSlots
        (Value.ofList [Value.keyed "generator_version" [.symbol "8.0.4", .symbol "extra"]]) =
      .ok { schematicInitSlots with generator_version := some "8.0.4" } ∧
    schematicScan schematicInitSlots
        (Value.ofList [Value.keyed "uuid"
          [.symbol "f1e2d3c4-b5a6-9788-0011-223344556677", .symbol "extra"]]) =
      .ok { schematicInitSlots with uuid := some ⟨"f1e2d3c4-b5a6-9788-0011-223344556677"⟩ } ∧
    schematicScan schematicInitSlots
        (Value.ofList [Value.keyed "generator" [.symbol "eeschema", .symbol "extra"]]) =
      .err (.ExpectedNil (Value.ofList [.symbol "extra"])) := by
  refine ⟨rfl, rfl, rfl, ?_, rfl⟩
  rfl

/-- Claim C2 counterexample: `TitleBlock::try_from` does NOT reject the
unknown key `bogus` — `(title_block (bogus "x"))` parses successfully to the
empty title block, because the source's inner `match key` ends in `_ => ()`,
silently discarding any unknown key whose payload is a single string atom. -/
theorem title_block_unknown_key_counterexample :
    TitleBlock.try_from (Value.keyed "title_block"
        [Value.keyed "bogus" [.string "x"]]) = .ok ⟨"", "", "", "", []⟩ := rfl

/-- Claim C2 as amended: in keyed-discipline matching, records with a
default rejection arm fail with `Unexpected(element)` on every element whose
leading key is outside the schema keys — shown here for `Symbol::try_from`,
whose known keys are `exclude_from_sim`, `in_bom`, `on_board`, `extends`,
`pin_names`, `pin_numbers`, `property`, `arc` and `pin` — but
`TitleBlock::try_from` is an exception: an unknown key whose payload is a
single string atom is accepted and silently discarded (only a key whose
payload fails the one-string shape is rejected). -/
theorem unknown_key_strictness (key s : String) (st : SymbolSlots) (cdr : Value)
    (hsym : key ∉ ["exclude_from_sim", "in_bom", "on_board", "extends", "pin_names",
      "pin_numbers", "property", "arc", "pin"])
    (htb : key ∉ ["comment", "title", "date", "rev", "company"]) :
    symbol_elem_step st (.cons (.symbol key) cdr) =
      .error (.Unexpected (.cons (.symbol key) cdr)) ∧
    TitleBlock.try_from (Value.keyed "title_block"
        [Value.keyed key [.string s]]) = .ok ⟨"", "", "", "", []⟩ := by
  constructor
  · rw [symbol_elem_step_eq_dispatch]
    apply symbolDispatch_unknown
    simpa using hsym
  · have hb : titleBlockScan "" "" "" "" []
        (.cons (.cons (.symbol key) (.cons (.string s) .null)) .null) =
        titleBlockDispatch "" "" "" "" [] key (.cons (.string s) .null) .null :=
      titleBlockScan_eq_dispatch "" "" "" "" [] key (.cons (.string s) .null) .null
    have h2 := titleBlockDispatch_unknown "" "" "" "" [] key s .null (by simpa using htb)
    exact hb.trans (h2.trans rfl)

/-- Claim C2 witness: the amended behavior at the concrete unknown key
`bogus_field`. -/
theorem unknown_key_strictness_witness :
    symbol_elem_step symbolInitSlots (.cons (.symbol "bogus_field") .null) =
      .error (.Unexpected (.cons (.symbol "bogus_field") .null)) ∧
    TitleBlock.try_from (Value.keyed "title_block"
        [Value.keyed "bogus_field" [.string "x"]]) = .ok ⟨"", "", "", "", []⟩ :=
  unknown_key_strictness "bogus_field" "x" symbolInitSlots .null (by decide) (by decide)

/-- Claim C6: for the keyed aggregate `Symbol` record, permuting the keyed
sub-elements of a `(symbol "id" ...)` list (all leading keys distinct) gives
a parse that succeeds exactly when the original parse succeeds and, on
success, assembles the identical record. -/
theorem symbol_keyed_order_independence (id : String) (l₁ l₂ : List Value)
    (hp : l₁.Perm l₂) (hk : (l₁.map symbolElemKey).Nodup) :
    ((Symbol.try_from (.cons (.symbol "symbol") (.cons (.string id) (Value.ofList l₁)))).isOk ↔
      (Symbol.try_from (.cons (.symbol "symbol") (.cons (.string id) (Value.ofList l₂)))).isOk) ∧
    (∀ r₁ r₂ : Symbol,
      Symbol.try_from (.cons (.symbol "symbol") (.cons (.string id) (Value.ofList l₁))) = .ok r₁ →
      Symbol.try_from (.cons (.symbol "symbol") (.cons (.string id) (Value.ofList l₂))) = .ok r₂ →
      r₁ = r₂) := by
  have hagree := symbolScanL_perm hp symbolInitSlots hk
  rw [← symbol_scan_ofList l₁ symbolInitSlots, ← symbol_scan_ofList l₂ symbolInitSlots] at hagree
  rw [symbol_try_from_eq id l₁, symbol_try_from_eq id l₂]
  rcases hagree with ⟨a, h1, h2⟩ | ⟨⟨e1, h1⟩, ⟨e2, h2⟩⟩
  · rw [h1, h2]
    refine ⟨Iff.rfl, ?_⟩
    intro r₁ r₂ hr1 hr2
    simp only [ok_map, Except.ok.injEq] at hr1 hr2
    rw [← hr1, ← hr2]
  · rw [h1, h2]
    refine ⟨Iff.rfl, ?_⟩
    intro r₁ r₂ hr1 hr2
    simp at hr1

/-- Claim C6 witness: the spec's own example — `(symbol "X" (in_bom yes)
(on_board no))` versus the list with `in_bom` and `on_board` swapped. -/
theorem symbol_keyed_order_independence_witness :
    ((Symbol.try_from (.cons (.symbol "symbol") (.cons (.string "X") (Value.ofList
        [Value.keyed "in_bom" [.symbol "yes"], Value.keyed "on_board" [.symbol "no"]])))).isOk ↔
      (Symbol.try_from (.cons (.symbol "symbol") (.cons (.string "X") (Value.ofList
        [Value.keyed "on_board" [.symbol "no"], Value.keyed "in_bom" [.symbol "yes"]])))).isOk) ∧
    (∀ r₁ r₂ : Symbol,
      Symbol.try_from (.cons (.symbol "symbol") (.cons (.string "X") (Value.ofList
        [Value.keyed "in_bom" [.symbol "yes"], Value.keyed "on_board" [.symbol "no"]]))) = .ok r₁ →
      Symbol.try_from (.cons (.symbol "symbol") (.cons (.string "X") (Value.ofList
        [Value.keyed "on_board" [.symbol "no"], Value.keyed "in_bom" [.symbol "yes"]]))) = .ok r₂ →
      r₁ = r₂) :=
  symbol_keyed_order_independence "X"
    [Value.keyed "in_bom" [.symbol "yes"], Value.keyed "on_board" [.symbol "no"]]
    [Value.keyed "on_board" [.symbol "no"], Value.keyed "in_bom" [.symbol "yes"]]
    (List.Perm.swap _ _ _) (by decide)

/-- Claim C1: the claim says every per-record entry point is total — always
an `Ok` record or a single `ParseError`, never a panic — and that
`Schematic::try_from` on a well-formed `(kicad_sch ...)` list returns a
`Schematic`.  The code's `Schematic::try_from` instead ends in `todo!()`:
after the scan loop finishes without error it panics unconditionally (and
`SchematicBusEntry::try_from` has an empty body), so the well-formed input
`(kicad_sch (generator eeschema))` aborts instead of producing a record. -/
theorem schematic_entry_point_panics :
    Schematic.try_from_outcome
        (Value.keyed "kicad_sch" [Value.keyed "generator" [.symbol "eeschema"]]) =
      .panicked ∧
    ∀ v : Value, SchematicBusEntry.try_from_outcome v = .panicked := by
  exact ⟨rfl, fun _ => rfl⟩

end Kanga
